import Mathlib

/-!
# Verification of the hvac-monitor analytics engine

A shallow embedding, in Lean 4, of the analytics core of the `hvac-monitor`
repository: the `Reading`, `Sensor`, `Zone` and `WeatherSnapshot` entities,
the pure thermal-analysis functions (`calcRateOfChange`, `estimateHeatLoss`,
`calcZoneDelta`, `calcWholeHouseSpread`, `calcUniformityScore`), the anomaly
detection service (`detectAnomalies`, `worstLevel`) and the `analyzeZones`
orchestrator, together with theorems checking the documented behaviour of
each of them.

Modelling conventions:
* JavaScript numbers are modelled as exact rationals (`ℚ`); `Math.sqrt` is
  modelled as the exact `Real.sqrt`, so the uniformity score lives in `ℝ`.
* Timestamps are rationals counting milliseconds, as `Date.getTime()` does;
  `Date` subtraction in the source is millisecond subtraction here.
* `Math.round` rounds half-up (`jsRound`), exactly as JavaScript does for
  the magnitudes involved.
* JavaScript's stable `Array.prototype.sort` is modelled by a stable
  insertion sort (`sortBy`); `Map` iteration/grouping, which preserves
  first-insertion order of keys, is modelled by group-by-first-occurrence
  (`List.dedup` of keys); `Map` construction from an entry list, where a
  later entry overwrites an earlier one with the same key, is modelled by
  `jsMapGet`, which looks the key up in the reversed entry list.
* The wall clock (`new Date()` default arguments) is passed explicitly as a
  rational `now` parameter.
* Mutating methods (`Sensor.ingestReadings`) become functions returning the
  updated entity.
-/

/-- JavaScript `Math.round`: round half toward positive infinity. -/
def jsRound (q : ℚ) : ℤ := ⌊q + 1 / 2⌋

/-- `Math.round (q * 10) / 10` — rounding to tenths at a function boundary. -/
def roundTenths (q : ℚ) : ℚ := (jsRound (q * 10) : ℚ) / 10

/-! ## A stable comparison sort

`Array.prototype.sort` with a comparator is a stable comparison sort; we model
it with a stable insertion sort: each element is inserted after every element
already placed that compares `le` to it, so elements that compare equal keep
their original relative order. -/

/-- Insert `a` after every element of `l` that satisfies `le · a`. -/
def insertBy (le : α → α → Bool) (a : α) : List α → List α
  | [] => [a]
  | x :: xs => if le x a then x :: insertBy le a xs else a :: x :: xs

/-- Stable insertion sort by the comparator `le`. -/
def sortBy (le : α → α → Bool) (l : List α) : List α :=
  l.foldl (fun acc a => insertBy le a acc) []

theorem insertBy_perm (le : α → α → Bool) (a : α) (l : List α) :
    List.Perm (insertBy le a l) (a :: l) := by
  induction l with
  | nil => simp [insertBy]
  | cons x xs ih =>
    by_cases h : le x a
    · simpa [insertBy, h] using ((ih.cons x).trans (List.Perm.swap a x xs))
    · simp [insertBy, h]

theorem foldl_insertBy_perm (le : α → α → Bool) (l acc : List α) :
    List.Perm (l.foldl (fun acc a => insertBy le a acc) acc) (acc ++ l) := by
  induction l generalizing acc with
  | nil => simp
  | cons a l ih =>
    have h1 : List.Perm (l.foldl (fun acc a => insertBy le a acc) (insertBy le a acc))
        (insertBy le a acc ++ l) := ih (insertBy le a acc)
    have h2 : List.Perm (insertBy le a acc ++ l) ((a :: acc) ++ l) :=
      (insertBy_perm le a acc).append_right l
    have h3 : List.Perm ((a :: acc) ++ l) (acc ++ a :: l) := List.perm_middle.symm
    exact (h1.trans h2).trans h3

theorem sortBy_perm (le : α → α → Bool) (l : List α) :
    List.Perm (sortBy le l) l := by
  simpa [sortBy] using foldl_insertBy_perm le l []

theorem mem_sortBy (le : α → α → Bool) (a : α) (l : List α) :
    a ∈ sortBy le l ↔ a ∈ l :=
  (sortBy_perm le l).mem_iff

theorem insertBy_pairwise (le : α → α → Bool)
    (htrans : ∀ a b c, le a b = true → le b c = true → le a c = true)
    (htotal : ∀ a b, le a b = true ∨ le b a = true)
    (a : α) (l : List α) (h : List.Pairwise (fun x y => le x y = true) l) :
    List.Pairwise (fun x y => le x y = true) (insertBy le a l) := by
  induction l with
  | nil => simp [insertBy]
  | cons x xs ih =>
    rw [List.pairwise_cons] at h
    obtain ⟨hx, hxs⟩ := h
    by_cases hxa : le x a
    · have hmem : ∀ y ∈ insertBy le a xs, le x y = true := by
        intro y hy
        rcases List.mem_cons.mp (((insertBy_perm le a xs).mem_iff).mp hy) with hya | hyxs
        · exact hya ▸ hxa
        · exact hx y hyxs
      rw [insertBy]
      simp only [hxa, if_true, List.pairwise_cons]
      exact ⟨hmem, ih hxs⟩
    · have hax : le a x = true := (htotal a x).resolve_right (by simpa using hxa)
      rw [insertBy]
      simp only [hxa, if_false, Bool.false_eq_true, List.pairwise_cons]
      refine ⟨?_, hx, hxs⟩
      intro y hy
      rcases List.mem_cons.mp hy with rfl | hyxs
      · exact hax
      · exact htrans a x y hax (hx y hyxs)

theorem sortBy_pairwise (le : α → α → Bool)
    (htrans : ∀ a b c, le a b = true → le b c = true → le a c = true)
    (htotal : ∀ a b, le a b = true ∨ le b a = true)
    (l : List α) :
    List.Pairwise (fun x y => le x y = true) (sortBy le l) := by
  have main : ∀ (l acc : List α), List.Pairwise (fun x y => le x y = true) acc →
      List.Pairwise (fun x y => le x y = true)
        (l.foldl (fun acc a => insertBy le a acc) acc) := by
    intro l
    induction l with
    | nil => intro acc hacc; simpa using hacc
    | cons a l ih =>
      intro acc hacc
      exact ih _ (insertBy_pairwise le htrans htotal a acc hacc)
  simpa [sortBy] using main l [] (by simp)

/-! ## Reading — Value Object (src/js/domain/entities/Reading.js)

`tempF` of a constructed reading is a finite rational throughout the engine
model.  The constructor's validation, which receives an arbitrary JavaScript
value for `tempF`, is modelled separately on `JSValue` below. -/

structure Reading where
  sensorId : String
  timestamp : ℚ
  tempF : ℚ
  humidityPct : Option ℚ
  batteryPct : Option ℚ

/-- A JavaScript number as the `Reading` constructor can receive it:
NaN, positive or negative infinity, or a finite value. -/
inductive JSNumber where
  | nan : JSNumber
  | posInf : JSNumber
  | negInf : JSNumber
  | finite (q : ℚ) : JSNumber
deriving DecidableEq

/-- A JavaScript value for the constructor's `tempF` argument: either a
number (`typeof tempF === 'number'`, which is true also of NaN and the
infinities) or any non-number value. -/
inductive JSValue where
  | num (x : JSNumber) : JSValue
  | nonNumber : JSValue
deriving DecidableEq

/-- `typeof tempF === 'number'`. -/
def JSValue.isNumberType : JSValue → Bool
  | .num _ => true
  | .nonNumber => false

/-- `Number.isNaN tempF` (false on every non-number, true only on NaN). -/
def JSValue.isNaNValue : JSValue → Bool
  | .num .nan => true
  | _ => false

/-- The fields a successfully constructed `Reading` holds when the embedding
keeps the full JavaScript number for `tempF` (the constructor does not force
finiteness, so `tempF` here is a `JSNumber`). -/
structure ConstructedReading where
  sensorId : String
  timestamp : ℚ
  tempF : JSNumber
  humidityPct : Option ℚ
  batteryPct : Option ℚ

/-- The `Reading` constructor: throws exactly when
`typeof tempF !== 'number' || Number.isNaN(tempF)`. -/
def mkReading (sensorId : String) (timestamp : ℚ) (tempF : JSValue)
    (humidityPct batteryPct : Option ℚ) : Except String ConstructedReading :=
  if !tempF.isNumberType || tempF.isNaNValue then
    Except.error "Reading requires numeric tempF"
  else
    match tempF with
    | .num x => Except.ok ⟨sensorId, timestamp, x, humidityPct, batteryPct⟩
    | .nonNumber => Except.error "Reading requires numeric tempF"

/-- `Reading.ageMinutes`: age in minutes relative to a reference time. -/
def Reading.ageMinutes (r : Reading) (referenceTime : ℚ) : ℚ :=
  (referenceTime - r.timestamp) / 60000

/-- `Reading.isStale`: strictly older than the threshold. -/
def Reading.isStale (r : Reading) (thresholdMinutes referenceTime : ℚ) : Bool :=
  decide (thresholdMinutes < r.ageMinutes referenceTime)

/-! ## Sensor — Entity (src/unnamed/part_000, `class Sensor`) -/

structure Sensor where
  sensorId : String
  label : String
  deviceId : Option String
  readings : List Reading

/-- Sort readings ascending by timestamp (`sort((a, b) => a.timestamp - b.timestamp)`,
a stable comparison sort). -/
def sortReadings (rs : List Reading) : List Reading :=
  sortBy (fun a b => decide (a.timestamp ≤ b.timestamp)) rs

/-- The recursion behind the source's deduplicating `filter`: the JavaScript
callback compares element `i` with element `i − 1` of the SORTED INPUT array
(`arr[i - 1]`), not with the last element it kept, so the carried `prev` here
advances to the current element whether or not it is kept. -/
def dedupeGo (prev : Reading) : List Reading → List Reading
  | [] => []
  | r :: rest =>
    if 1000 < |r.timestamp - prev.timestamp| then r :: dedupeGo r rest
    else dedupeGo r rest

/-- `filter((r, i, arr) => i === 0 || Math.abs(r.timestamp - arr[i-1].timestamp) > 1000)`. -/
def dedupeReadings : List Reading → List Reading
  | [] => []
  | r :: rest => r :: dedupeGo r rest

/-- `Sensor.ingestReadings`: append the readings whose `sensorId` matches,
re-sort ascending by timestamp, deduplicate by the 1-second rule. -/
def Sensor.ingestReadings (s : Sensor) (rs : List Reading) : Sensor :=
  { s with readings :=
      dedupeReadings (sortReadings
        (s.readings ++ rs.filter (fun r => decide (r.sensorId = s.sensorId)))) }

/-- `Sensor.readingsInWindow`: readings with timestamp at or after
`referenceTime − hours`. -/
def Sensor.readingsInWindow (s : Sensor) (hours referenceTime : ℚ) : List Reading :=
  s.readings.filter (fun r => decide (referenceTime - hours * 3600000 ≤ r.timestamp))

/-- `Sensor.latestReading`: most recent reading, or none. -/
def Sensor.latestReading (s : Sensor) : Option Reading :=
  s.readings.getLast?

/-- `Sensor.currentTempF`: the latest reading's temperature unless stale. -/
def Sensor.currentTempF (s : Sensor) (now : ℚ) : Option ℚ :=
  match s.latestReading with
  | some r => if r.isStale 15 now then none else some r.tempF
  | none => none

/-- `Sensor.currentHumidity`. -/
def Sensor.currentHumidity (s : Sensor) (now : ℚ) : Option ℚ :=
  match s.latestReading with
  | some r => if r.isStale 15 now then none else r.humidityPct
  | none => none

/-- `Sensor.currentBattery`. -/
def Sensor.currentBattery (s : Sensor) (now : ℚ) : Option ℚ :=
  match s.latestReading with
  | some r => if r.isStale 15 now then none else r.batteryPct
  | none => none

/-- `Sensor.status`: offline with no readings, stale when the latest reading
is over 15 minutes old, online otherwise. -/
def Sensor.status (s : Sensor) (now : ℚ) : String :=
  match s.latestReading with
  | none => "offline"
  | some r => if r.isStale 15 now then "stale" else "online"

/-! ## Zone — Aggregate Root (src/unnamed/part_002, `class Zone`) -/

structure Zone where
  zoneId : String
  name : String
  hvacZone : Option String
  adjacentZoneIds : List String
  sensors : List Sensor

/-- `Zone.sensorCount`. -/
def Zone.sensorCount (z : Zone) : ℕ := z.sensors.length

/-- `Zone.coverageStatus`: uncovered with no sensors or no online sensor;
covered when every sensor is online; otherwise some but not all are online. -/
def Zone.coverageStatus (z : Zone) (now : ℚ) : String :=
  if z.sensors.length = 0 then "uncovered"
  else if (z.sensors.filter (fun s => decide (s.status now = "online"))).length = 0 then
    "uncovered"
  else if (z.sensors.filter (fun s => decide (s.status now = "online"))).length
      < z.sensors.length then "partial"
  else "covered"

/-- `Zone.currentTempF`: arithmetic mean of the sensors' current temperatures. -/
def Zone.currentTempF (z : Zone) (now : ℚ) : Option ℚ :=
  if (z.sensors.filterMap (fun s => s.currentTempF now)).length = 0 then none
  else some ((z.sensors.filterMap (fun s => s.currentTempF now)).sum
    / ((z.sensors.filterMap (fun s => s.currentTempF now)).length : ℚ))

/-- `Math.min(...temps)` over a nonempty list. -/
def listMin : List ℚ → Option ℚ
  | [] => none
  | t :: ts => some (ts.foldl min t)

/-- `Math.max(...temps)` over a nonempty list. -/
def listMax : List ℚ → Option ℚ
  | [] => none
  | t :: ts => some (ts.foldl max t)

/-- `Zone.minTempF`. -/
def Zone.minTempF (z : Zone) (now : ℚ) : Option ℚ :=
  listMin (z.sensors.filterMap (fun s => s.currentTempF now))

/-- `Zone.maxTempF`. -/
def Zone.maxTempF (z : Zone) (now : ℚ) : Option ℚ :=
  listMax (z.sensors.filterMap (fun s => s.currentTempF now))

/-- `Zone.tempSpreadF`: max minus min when both exist. -/
def Zone.tempSpreadF (z : Zone) (now : ℚ) : Option ℚ :=
  match z.minTempF now, z.maxTempF now with
  | some mn, some mx => some (mx - mn)
  | _, _ => none

/-- `Zone.currentHumidity`: mean of the sensors' current humidities. -/
def Zone.currentHumidity (z : Zone) (now : ℚ) : Option ℚ :=
  if (z.sensors.filterMap (fun s => s.currentHumidity now)).length = 0 then none
  else some ((z.sensors.filterMap (fun s => s.currentHumidity now)).sum
    / ((z.sensors.filterMap (fun s => s.currentHumidity now)).length : ℚ))

/-- One point of a zone's bucketed time series. -/
structure TimeSeriesPoint where
  timestamp : ℚ
  tempF : ℚ
  sensorCount : ℕ

/-- The in-window readings of all of a zone's sensors, in sensor order
(`flatMap(s => s.readingsInWindow(hours, referenceTime))`). -/
def Zone.windowReadings (z : Zone) (hours referenceTime : ℚ) : List Reading :=
  (z.sensors.map (fun s => s.readingsInWindow hours referenceTime)).flatten

/-- The bucket key of a reading: `Math.floor(timestamp / bucketMs)` (the
source multiplies the floor back by `bucketMs` to key its `Map`; the integer
floor is an equivalent key). -/
def bucketIndex (bucketMs : ℚ) (timestamp : ℚ) : ℤ :=
  ⌊timestamp / bucketMs⌋

/-- The distinct bucket keys of a zone's in-window readings, in order of
first occurrence (the JavaScript `Map` iterates keys in first-insertion
order, which is `List.dedup` of the key list). -/
def bucketKeys (z : Zone) (hours bucketMinutes referenceTime : ℚ) : List ℤ :=
  ((z.windowReadings hours referenceTime).map
    (fun r => bucketIndex (bucketMinutes * 60000) r.timestamp)).dedup

/-- The temperatures of bucket `k`, in reading order (exactly the order the
repeated `Map.get(key).temps.push` calls produce). -/
def bucketTemps (z : Zone) (hours bucketMinutes referenceTime : ℚ) (k : ℤ) : List ℚ :=
  ((z.windowReadings hours referenceTime).filter
    (fun r => decide (bucketIndex (bucketMinutes * 60000) r.timestamp = k))).map
      (fun r => r.tempF)

/-- `Zone.getTimeSeries`: bucket the in-window readings of all sensors into
`bucketMinutes`-wide intervals, average each bucket, and sort the points by
timestamp.  Each point's `sensorCount` is the number of readings in its
bucket (`temps.length`). -/
def Zone.getTimeSeries (z : Zone) (hours bucketMinutes referenceTime : ℚ) :
    List TimeSeriesPoint :=
  if (z.windowReadings hours referenceTime).length = 0 then []
  else
    sortBy (fun a b => decide (a.timestamp ≤ b.timestamp))
      ((bucketKeys z hours bucketMinutes referenceTime).map (fun (k : ℤ) =>
        { timestamp := (k : ℚ) * (bucketMinutes * 60000) + (bucketMinutes * 60000) / 2,
          tempF := (bucketTemps z hours bucketMinutes referenceTime k).sum
            / ((bucketTemps z hours bucketMinutes referenceTime k).length : ℚ),
          sensorCount := (bucketTemps z hours bucketMinutes referenceTime k).length }))

/-! ## WeatherSnapshot — Value Object (src/js/domain/entities/WeatherSnapshot.js)

Only the fields the analytics engine reads are modelled; `tempF` is optional
because `analyzeZones` explicitly guards against a null/undefined outdoor
temperature. -/

structure WeatherSnapshot where
  timestamp : ℚ
  tempF : Option ℚ
  humidity : Option ℚ

/-! ## Thermal analysis (src/js/domain/services/ThermalAnalysis.js)

`calcRateOfChange` is split into named pieces that mirror the source's local
bindings (`window`, `xs`, `ys`, the running sums, `denom`, `slope`, `ssRes`,
`ssTot`, `r2`) so that theorems can speak about each of them. -/

/-- A `{ timestamp, tempF }` point as `calcRateOfChange` consumes it. -/
structure SeriesPoint where
  timestamp : ℚ
  tempF : ℚ

/-- A `calcRateOfChange` result. -/
structure RateResult where
  ratePerHour : ℚ
  r2 : ℚ
  direction : String

/-- The windowed sub-series: points within `windowMinutes` of the series'
own last timestamp (`now = series[series.length - 1].timestamp`,
`cutoff = now - windowMinutes * 60_000`, `filter(p => p.timestamp >= cutoff)`). -/
def regressionWindow (series : List SeriesPoint) (windowMinutes : ℚ) : List SeriesPoint :=
  match series.getLast? with
  | none => []
  | some lastP =>
    series.filter (fun p => decide (lastP.timestamp - windowMinutes * 60000 ≤ p.timestamp))

/-- `xs`: elapsed hours from the window's first timestamp. -/
def regXs (window : List SeriesPoint) : List ℚ :=
  match window with
  | [] => []
  | w0 :: _ => window.map (fun p => (p.timestamp - w0.timestamp) / 3600000)

/-- `ys`: the temperatures. -/
def regYs (window : List SeriesPoint) : List ℚ :=
  window.map (fun p => p.tempF)

/-- `sumX`. -/
def regSumX (window : List SeriesPoint) : ℚ := (regXs window).sum

/-- `sumY`. -/
def regSumY (window : List SeriesPoint) : ℚ := (regYs window).sum

/-- `sumXY`. -/
def regSumXY (window : List SeriesPoint) : ℚ :=
  (((regXs window).zip (regYs window)).map (fun p => p.1 * p.2)).sum

/-- `sumX2`. -/
def regSumX2 (window : List SeriesPoint) : ℚ :=
  ((regXs window).map (fun x => x * x)).sum

/-- `denom = n * sumX2 - sumX * sumX`. -/
def regDenom (window : List SeriesPoint) : ℚ :=
  (window.length : ℚ) * regSumX2 window - regSumX window * regSumX window

/-- `slope = (n * sumXY - sumX * sumY) / denom`. -/
def regSlope (window : List SeriesPoint) : ℚ :=
  ((window.length : ℚ) * regSumXY window - regSumX window * regSumY window)
    / regDenom window

/-- `ssRes`: residual sum of squares about the fitted line. -/
def regSsRes (window : List SeriesPoint) : ℚ :=
  (((regXs window).zip (regYs window)).map (fun p =>
    (p.2 - (regSumY window / (window.length : ℚ)
      + regSlope window * (p.1 - regSumX window / (window.length : ℚ)))) ^ 2)).sum

/-- `ssTot`: total sum of squares about the mean temperature. -/
def regSsTot (window : List SeriesPoint) : ℚ :=
  ((regYs window).map (fun y => (y - regSumY window / (window.length : ℚ)) ^ 2)).sum

/-- `r2 = ssTot > 0 ? 1 - ssRes / ssTot : 0`. -/
def regR2 (window : List SeriesPoint) : ℚ :=
  if 0 < regSsTot window then 1 - regSsRes window / regSsTot window else 0

/-- `calcRateOfChange(series, windowMinutes)` (the source's local `window`
is written out as `regressionWindow series windowMinutes`). -/
def calcRateOfChange (series : List SeriesPoint) (windowMinutes : ℚ) : Option RateResult :=
  if series.length < 2 then none
  else if (regressionWindow series windowMinutes).length < 2 then none
  else if |regDenom (regressionWindow series windowMinutes)| < 1 / 10 ^ 10 then none
  else some
    { ratePerHour := (jsRound (regSlope (regressionWindow series windowMinutes) * 100) : ℚ) / 100,
      r2 := (jsRound (regR2 (regressionWindow series windowMinutes) * 1000) : ℚ) / 1000,
      direction :=
        if |regSlope (regressionWindow series windowMinutes)| < 3 / 10 then "stable"
        else if 0 < regSlope (regressionWindow series windowMinutes) then "rising"
        else "falling" }

/-- `estimateHeatLoss(indoorTempF, outdoorTempF, thermalResistance)`:
`Q = (T_indoor - T_outdoor) / R`, zero for a non-positive resistance. -/
def estimateHeatLoss (indoorTempF outdoorTempF thermalResistance : ℚ) : ℚ :=
  if thermalResistance ≤ 0 then 0
  else (indoorTempF - outdoorTempF) / thermalResistance

/-- A `calcZoneDelta` result. -/
structure DeltaResult where
  deltaF : ℚ
  abs : ℚ
  warmer : String

/-- `calcZoneDelta(zoneA, zoneB)`. -/
def calcZoneDelta (zoneA zoneB : Zone) (now : ℚ) : Option DeltaResult :=
  match zoneA.currentTempF now, zoneB.currentTempF now with
  | some tA, some tB =>
    some
      { deltaF := roundTenths (tA - tB),
        abs := roundTenths |tA - tB|,
        warmer :=
          if 0 < tA - tB then zoneA.zoneId
          else if tA - tB < 0 then zoneB.zoneId
          else "equal" }
  | _, _ => none

/-- A `calcWholeHouseSpread` result. -/
structure SpreadResult where
  spreadF : ℚ
  coldest : String
  warmest : String

/-- A covered-zone record `{ id, name, temp }` as `calcWholeHouseSpread`
builds it. -/
structure CoveredZone where
  id : String
  name : String
  temp : ℚ

/-- The `{ id, name, temp }` records of the zones that have a current
temperature. -/
def coveredZones (zones : List Zone) (now : ℚ) : List CoveredZone :=
  zones.filterMap (fun z =>
    (z.currentTempF now).map (fun t => CoveredZone.mk z.zoneId z.name t))

/-- `calcWholeHouseSpread(zones)`: over zones with a current temperature,
sort by temperature and report warmest minus coldest. -/
def calcWholeHouseSpread (zones : List Zone) (now : ℚ) : Option SpreadResult :=
  if (coveredZones zones now).length < 2 then none
  else
    match (sortBy (fun a b => decide (a.temp ≤ b.temp)) (coveredZones zones now)).head?,
        (sortBy (fun a b => decide (a.temp ≤ b.temp)) (coveredZones zones now)).getLast? with
    | some coldest, some warmest =>
      some
        { spreadF := roundTenths (warmest.temp - coldest.temp),
          coldest := coldest.name,
          warmest := warmest.name }
    | _, _ => none

/-- The mean of the reporting zone temperatures. -/
def uniformityMean (temps : List ℚ) : ℚ := temps.sum / (temps.length : ℚ)

/-- The population variance of the reporting zone temperatures. -/
def uniformityVariance (temps : List ℚ) : ℚ :=
  (temps.map (fun t => (t - uniformityMean temps) ^ 2)).sum / (temps.length : ℚ)

/-- `calcUniformityScore(zones, toleranceF)`:
`Math.max(0, Math.min(1, 1 - stdDev / toleranceF))` over the zones that have
a current temperature, none when fewer than 2 do.  `Math.sqrt` is the exact
square root, so the score is a real number. -/
noncomputable def calcUniformityScore (zones : List Zone) (now toleranceF : ℚ) :
    Option ℝ :=
  if (zones.filterMap (fun z => z.currentTempF now)).length < 2 then none
  else some (max 0 (min 1
    (1 - Real.sqrt
      ((uniformityVariance (zones.filterMap (fun z => z.currentTempF now)) : ℚ) : ℝ)
        / (toleranceF : ℝ))))

/-! ## Anomaly detection (src/unnamed/part_002, AnomalyDetectionService)

Anomaly messages in the source interpolate `toFixed` renderings of the
values; the embedding keeps the message text but elides the number
formatting, which no theorem here concerns. -/

/-- The threshold configuration (`DEFAULT_THRESHOLDS` merged with per-call
overrides becomes an explicit record). -/
structure Thresholds where
  comfortLowF : ℚ
  comfortHighF : ℚ
  dangerLowF : ℚ
  dangerHighF : ℚ
  maxRatePerHour : ℚ
  maxZoneDeltaF : ℚ
  maxWholeHouseSpreadF : ℚ
  staleSensorMinutes : ℚ

/-- `DEFAULT_THRESHOLDS`. -/
def defaultThresholds : Thresholds :=
  { comfortLowF := 65, comfortHighF := 78, dangerLowF := 60, dangerHighF := 85,
    maxRatePerHour := 3, maxZoneDeltaF := 5, maxWholeHouseSpreadF := 8,
    staleSensorMinutes := 15 }

/-- An anomaly record `{ level, zoneId, code, message, value? }`. -/
structure Anomaly where
  level : String
  zoneId : String
  code : String
  message : String
  value : Option ℚ

/-- `Map.get` on a map built from an entry list: a later entry with the same
key overwrites an earlier one, so look the key up in the reversed list. -/
def jsMapGet (entries : List (String × α)) (key : String) : Option α :=
  entries.reverse.lookup key

/-- The temperature-band block of `detectAnomalies`' per-zone loop: a single
if/else-if chain checked most-severe-first
(danger-low, warning-low, danger-high, warning-high). -/
def zoneTempAnomalies (z : Zone) (now : ℚ) (T : Thresholds) : List Anomaly :=
  match z.currentTempF now with
  | none => []
  | some temp =>
    if temp < T.dangerLowF then
      [⟨"danger", z.zoneId, "TEMP_DANGER_LOW",
        z.name ++ " is dangerously cold", some temp⟩]
    else if temp < T.comfortLowF then
      [⟨"warning", z.zoneId, "TEMP_LOW",
        z.name ++ " is below comfort range", some temp⟩]
    else if T.dangerHighF < temp then
      [⟨"danger", z.zoneId, "TEMP_DANGER_HIGH",
        z.name ++ " is dangerously hot", some temp⟩]
    else if T.comfortHighF < temp then
      [⟨"warning", z.zoneId, "TEMP_HIGH",
        z.name ++ " is above comfort range", some temp⟩]
    else []

/-- The rate-of-change block of the per-zone loop. -/
def zoneRateAnomalies (z : Zone) (rateMap : List (String × RateResult))
    (T : Thresholds) : List Anomaly :=
  match jsMapGet rateMap z.zoneId with
  | some rate =>
    if T.maxRatePerHour < |rate.ratePerHour| then
      [⟨"warning", z.zoneId, "RAPID_CHANGE",
        z.name ++ (if 0 < rate.ratePerHour then " is rising" else " is falling"),
        some rate.ratePerHour⟩]
    else []
  | none => []

/-- The sensor-coverage block of the per-zone loop. -/
def zoneCoverageAnomalies (z : Zone) (now : ℚ) : List Anomaly :=
  if 0 < z.sensorCount ∧ z.coverageStatus now = "uncovered" then
    [⟨"warning", z.zoneId, "ALL_SENSORS_OFFLINE",
      z.name ++ " all sensors offline", none⟩]
  else if z.coverageStatus now = "partial" then
    [⟨"info", z.zoneId, "PARTIAL_COVERAGE",
      z.name ++ " some sensors offline", none⟩]
  else []

/-- The intra-zone-spread block of the per-zone loop. -/
def zoneSpreadAnomalies (z : Zone) (now : ℚ) (T : Thresholds) : List Anomaly :=
  match z.tempSpreadF now with
  | some spread =>
    if T.maxZoneDeltaF < spread then
      [⟨"warning", z.zoneId, "INTRA_ZONE_SPREAD",
        z.name ++ " has a spread between sensors", some spread⟩]
    else []
  | none => []

/-- The battery block of the per-zone loop. -/
def zoneBatteryAnomalies (z : Zone) (now : ℚ) : List Anomaly :=
  (z.sensors.map (fun s =>
    match s.currentBattery now with
    | some b =>
      if b < 20 then
        [⟨if b < 10 then "warning" else "info", z.zoneId, "LOW_BATTERY",
          s.label ++ " battery low", some b⟩]
      else []
    | none => [])).flatten

/-- Everything the per-zone loop of `detectAnomalies` pushes for one zone,
in push order. -/
def zoneAnomalies (z : Zone) (now : ℚ) (rateMap : List (String × RateResult))
    (T : Thresholds) : List Anomaly :=
  zoneTempAnomalies z now T ++ zoneRateAnomalies z rateMap T
    ++ zoneCoverageAnomalies z now ++ zoneSpreadAnomalies z now T
    ++ zoneBatteryAnomalies z now

/-- The whole-house-spread check after the per-zone loop. -/
def houseSpreadAnomalies (zones : List Zone) (now : ℚ) (T : Thresholds) :
    List Anomaly :=
  if 2 ≤ (zones.filterMap (fun z => z.currentTempF now)).length then
    match listMax (zones.filterMap (fun z => z.currentTempF now)),
        listMin (zones.filterMap (fun z => z.currentTempF now)) with
    | some mx, some mn =>
      if T.maxWholeHouseSpreadF < mx - mn then
        [⟨"warning", "__house__", "HOUSE_SPREAD",
          "whole-house spread is large", some (mx - mn)⟩]
      else []
    | _, _ => []
  else []

/-- `detectAnomalies(zones, weather, rateOfChangeMap, thresholdOverrides)`.
The `weather` argument is accepted and, exactly as in the source body,
never read. -/
def detectAnomalies (zones : List Zone) (weather : Option WeatherSnapshot)
    (rateMap : List (String × RateResult)) (T : Thresholds) (now : ℚ) :
    List Anomaly :=
  (zones.map (fun z => zoneAnomalies z now rateMap T)).flatten
    ++ houseSpreadAnomalies zones now T

/-- `worstLevel(anomalies)`. -/
def worstLevel (anomalies : List Anomaly) : String :=
  if anomalies.any (fun a => a.level = "danger") then "danger"
  else if anomalies.any (fun a => a.level = "warning") then "warning"
  else if anomalies.any (fun a => a.level = "info") then "info"
  else "ok"

/-! ## AnalyzeZones — Use Case (src/unnamed/part_000, `analyzeZones`) -/

/-- A per-zone analysis record. -/
structure ZoneAnalysis where
  zoneId : String
  rateOfChange : Option RateResult
  heatLossBtuHr : Option ℚ
  indoorOutdoorDeltaF : Option ℚ

/-- An adjacent-pair delta record. -/
structure ZoneDeltaResult where
  zoneAId : String
  zoneBId : String
  zoneAName : String
  zoneBName : String
  delta : Option DeltaResult

/-- The consolidated analysis result. -/
structure AnalysisResult where
  zoneAnalyses : List ZoneAnalysis
  deltas : List ZoneDeltaResult
  houseSpread : Option SpreadResult
  uniformityScore : Option ℝ
  anomalies : List Anomaly
  overallStatus : String

/-- The 1-hour, 5-minute-bucket series `analyzeZones` feeds to
`calcRateOfChange` for one zone. -/
def zoneRateSeries (z : Zone) (now : ℚ) : List SeriesPoint :=
  (z.getTimeSeries 1 5 now).map (fun p => SeriesPoint.mk p.timestamp p.tempF)

/-- `thermalResistances.get(zone.zoneId) || DEFAULT_R`: the JavaScript `||`
falls back to the default both when the map has no entry and when the stored
override is 0 (a falsy number). -/
def resolveResistance (thermalResistances : List (String × ℚ)) (zoneId : String) : ℚ :=
  match jsMapGet thermalResistances zoneId with
  | some v => if v = 0 then 1 else v
  | none => 1

/-- The body of `analyzeZones`' per-zone loop. -/
def analyzeZone (weather : Option WeatherSnapshot)
    (thermalResistances : List (String × ℚ)) (now : ℚ) (zone : Zone) : ZoneAnalysis :=
  match zone.currentTempF now, weather.bind (fun w => w.tempF) with
  | some temp, some wt =>
    { zoneId := zone.zoneId,
      rateOfChange := calcRateOfChange (zoneRateSeries zone now) 30,
      heatLossBtuHr :=
        some (roundTenths (estimateHeatLoss temp wt
          (resolveResistance thermalResistances zone.zoneId))),
      indoorOutdoorDeltaF := some (roundTenths (temp - wt)) }
  | _, _ =>
    { zoneId := zone.zoneId,
      rateOfChange := calcRateOfChange (zoneRateSeries zone now) 30,
      heatLossBtuHr := none, indoorOutdoorDeltaF := none }

/-- The per-zone rate map the loop accumulates (only zones whose rate
calculation produced a result are inserted). -/
def zoneRateMap (zones : List Zone) (now : ℚ) : List (String × RateResult) :=
  zones.filterMap (fun z =>
    (calcRateOfChange (zoneRateSeries z now) 30).map (fun r => (z.zoneId, r)))

/-- The canonical unordered-pair key: the two zone identifiers sorted
lexicographically and joined (`[a, b].sort().join('::')`). -/
def pairKey (a b : String) : String :=
  if a ≤ b then a ++ "::" ++ b else b ++ "::" ++ a

/-- The adjacent-pair loop of `analyzeZones`: walk every zone's declared
adjacencies, skip a pair whose canonical key was already processed, mark the
key processed, then drop the pair silently when the adjacent zone id is
unknown.  `zoneMap.get` is `jsMapGet` over the zone entry list. -/
def collectDeltasGo (zoneEntries : List (String × Zone)) (now : ℚ) :
    List String → List (Zone × String) → List ZoneDeltaResult
  | _, [] => []
  | processed, (z, adjId) :: rest =>
    if pairKey z.zoneId adjId ∈ processed then
      collectDeltasGo zoneEntries now processed rest
    else
      match jsMapGet zoneEntries adjId with
      | none => collectDeltasGo zoneEntries now (pairKey z.zoneId adjId :: processed) rest
      | some adjZone =>
        { zoneAId := z.zoneId, zoneBId := adjId,
          zoneAName := z.name, zoneBName := adjZone.name,
          delta := calcZoneDelta z adjZone now }
          :: collectDeltasGo zoneEntries now (pairKey z.zoneId adjId :: processed) rest

/-- The deduplicated adjacent-pair delta list of `analyzeZones`. -/
def collectDeltas (zones : List Zone) (now : ℚ) : List ZoneDeltaResult :=
  collectDeltasGo (zones.map (fun z => (z.zoneId, z))) now []
    ((zones.map (fun z => z.adjacentZoneIds.map (fun adjId => (z, adjId)))).flatten)

/-- `analyzeZones({ zones, weather, thermalResistances })`. -/
noncomputable def analyzeZones (zones : List Zone) (weather : Option WeatherSnapshot)
    (thermalResistances : List (String × ℚ)) (now : ℚ) : AnalysisResult :=
  let anomalies := detectAnomalies zones weather (zoneRateMap zones now)
    defaultThresholds now
  { zoneAnalyses := zones.map (analyzeZone weather thermalResistances now),
    deltas := collectDeltas zones now,
    houseSpread := calcWholeHouseSpread zones now,
    uniformityScore := calcUniformityScore zones now 2,
    anomalies := anomalies,
    overallStatus := worstLevel anomalies }

/-! ## Spec-side definitions

These definitions follow the specification's words, not the source, and are
compared with the source-derived definitions in refinement theorems. -/

/-- The arithmetic mean of a list. -/
def listMean (l : List ℚ) : ℚ := l.sum / (l.length : ℚ)

/-- Spec definition: the ordinary-least-squares slope of `ys` against `xs`
in its textbook mean-centred form, covariance over variance. -/
def olsSlopeSpec (xs ys : List ℚ) : ℚ :=
  ((xs.zip ys).map (fun p => (p.1 - listMean xs) * (p.2 - listMean ys))).sum
    / ((xs.map (fun x => (x - listMean xs) ^ 2)).sum)

/-- Spec definition of the deduplication invariant: keep the head of the
sorted sequence, and keep a later element exactly when its timestamp is more
than one second from the immediately preceding element of the sorted
sequence (so of a cluster of near-duplicates the first occurrence in sort
order survives). -/
def specDedupKeepFirst (l : List Reading) : List Reading :=
  match l with
  | [] => []
  | _ :: rest =>
    (l.head?.toList)
      ++ ((l.zip rest).filterMap (fun pr =>
            if 1000 < |pr.2.timestamp - pr.1.timestamp| then some pr.2 else none))

/-! ## Algebra lemmas for the regression refinement -/

theorem sum_map_mul_sub_sub (l : List (ℚ × ℚ)) (a b : ℚ) :
    (l.map (fun p => (p.1 - a) * (p.2 - b))).sum
      = (l.map (fun p => p.1 * p.2)).sum - a * (l.map Prod.snd).sum
        - b * (l.map Prod.fst).sum + (l.length : ℚ) * (a * b) := by
  induction l with
  | nil => simp
  | cons p l ih =>
    simp only [List.map_cons, List.sum_cons, List.length_cons, ih]
    push_cast
    ring

theorem sum_map_sq_sub (l : List ℚ) (a : ℚ) :
    (l.map (fun x => (x - a) ^ 2)).sum
      = (l.map (fun x => x * x)).sum - 2 * a * l.sum + (l.length : ℚ) * a ^ 2 := by
  induction l with
  | nil => simp
  | cons x l ih =>
    simp only [List.map_cons, List.sum_cons, List.length_cons, ih]
    push_cast
    ring

theorem regXs_length (w : List SeriesPoint) : (regXs w).length = w.length := by
  cases w <;> simp [regXs]

theorem regYs_length (w : List SeriesPoint) : (regYs w).length = w.length := by
  simp [regYs]

/-- The source's computational slope formula
`(n·Σxy − Σx·Σy) / (n·Σx² − (Σx)²)` equals the textbook ordinary
least-squares slope whenever the denominator is nonzero. -/
theorem regSlope_eq_olsSlopeSpec (w : List SeriesPoint) (hlen : w ≠ [])
    (hd : regDenom w ≠ 0) :
    regSlope w = olsSlopeSpec (regXs w) (regYs w) := by
  have hxlen : (regXs w).length = w.length := regXs_length w
  have hylen : (regYs w).length = w.length := regYs_length w
  have hzip_fst : ((regXs w).zip (regYs w)).map Prod.fst = regXs w :=
    List.map_fst_zip _ _ (by rw [hxlen, hylen])
  have hzip_snd : ((regXs w).zip (regYs w)).map Prod.snd = regYs w :=
    List.map_snd_zip _ _ (by rw [hxlen, hylen])
  have hziplen : (((regXs w).zip (regYs w)).length : ℚ) = (w.length : ℚ) := by
    rw [List.length_zip, hxlen, hylen, min_self]
  have hn : ((w.length : ℚ)) ≠ 0 := by
    have : w.length ≠ 0 := by
      intro h0
      exact hlen (List.length_eq_zero.mp h0)
    exact_mod_cast this
  have hcov : ((( regXs w).zip (regYs w)).map (fun p =>
        (p.1 - listMean (regXs w)) * (p.2 - listMean (regYs w)))).sum
      = regSumXY w - regSumX w * regSumY w / (w.length : ℚ) := by
    rw [sum_map_mul_sub_sub, hzip_fst, hzip_snd, hziplen]
    simp only [listMean, hxlen, hylen, regSumXY, regSumX, regSumY]
    field_simp
    ring
  have hvar : ((regXs w).map (fun x => (x - listMean (regXs w)) ^ 2)).sum
      = regSumX2 w - regSumX w * regSumX w / (w.length : ℚ) := by
    rw [sum_map_sq_sub]
    simp only [listMean, hxlen, regSumX2, regSumX]
    field_simp
    ring
  have hvar_ne : regSumX2 w - regSumX w * regSumX w / (w.length : ℚ) ≠ 0 := by
    intro h0
    apply hd
    have hded : regDenom w
        = (w.length : ℚ) * (regSumX2 w - regSumX w * regSumX w / (w.length : ℚ)) := by
      rw [regDenom]
      field_simp
      ring
    rw [hded, h0, mul_zero]
  rw [olsSlopeSpec, hcov, hvar, regSlope]
  rw [div_eq_div_iff hd hvar_ne, regDenom]
  field_simp
  ring

/-! ## Deduplication lemmas -/

theorem dedupeGo_subset (l : List Reading) : ∀ (p : Reading), ∀ r ∈ dedupeGo p l, r ∈ l := by
  induction l with
  | nil => intro p r hr; simp [dedupeGo] at hr
  | cons x xs ih =>
    intro p r hr
    rw [dedupeGo] at hr
    by_cases h : 1000 < |x.timestamp - p.timestamp|
    · rw [if_pos h] at hr
      rcases List.mem_cons.mp hr with rfl | hr'
      · exact List.mem_cons_self _ _
      · exact List.mem_cons_of_mem _ (ih x r hr')
    · rw [if_neg h] at hr
      exact List.mem_cons_of_mem _ (ih x r hr)

theorem dedupeReadings_subset (l : List Reading) : ∀ r ∈ dedupeReadings l, r ∈ l := by
  cases l with
  | nil => simp [dedupeReadings]
  | cons x xs =>
    intro r hr
    rw [dedupeReadings] at hr
    rcases List.mem_cons.mp hr with rfl | hr'
    · exact List.mem_cons_self _ _
    · exact List.mem_cons_of_mem _ (dedupeGo_subset xs x r hr')

theorem dedupeGo_eq_zipFilter (l : List Reading) : ∀ (p : Reading),
    dedupeGo p l = ((p :: l).zip l).filterMap (fun pr =>
      if 1000 < |pr.2.timestamp - pr.1.timestamp| then some pr.2 else none) := by
  induction l with
  | nil => intro p; simp [dedupeGo]
  | cons x xs ih =>
    intro p
    rw [dedupeGo]
    by_cases h : 1000 < |x.timestamp - p.timestamp|
    · simp only [if_pos h, List.zip_cons_cons, List.filterMap_cons, ih x]
    · simp only [if_neg h, List.zip_cons_cons, List.filterMap_cons, ih x]

/-- The source's dedupe filter computes exactly the specification's
keep-first-of-each-cluster rule. -/
theorem dedupeReadings_eq_spec (l : List Reading) :
    dedupeReadings l = specDedupKeepFirst l := by
  cases l with
  | nil => simp [dedupeReadings, specDedupKeepFirst]
  | cons x xs =>
    rw [dedupeReadings, specDedupKeepFirst, dedupeGo_eq_zipFilter xs x]
    simp

theorem dedupeGo_gap (l : List Reading) : ∀ (p : Reading),
    List.Pairwise (fun a b => a.timestamp ≤ b.timestamp) (p :: l) →
    List.Pairwise (fun a b => a.timestamp + 1000 < b.timestamp) (p :: dedupeGo p l)
    ∧ ∀ r ∈ dedupeGo p l, p.timestamp + 1000 < r.timestamp := by
  induction l with
  | nil => intro p _; simp [dedupeGo]
  | cons x xs ih =>
    intro p hp
    rw [List.pairwise_cons] at hp
    obtain ⟨hple, hrest⟩ := hp
    have hpx : p.timestamp ≤ x.timestamp := hple x (List.mem_cons_self x xs)
    have ihx := ih x hrest
    rw [dedupeGo]
    by_cases h : 1000 < |x.timestamp - p.timestamp|
    · have hgap : p.timestamp + 1000 < x.timestamp := by
        rw [abs_of_nonneg (sub_nonneg.mpr hpx)] at h
        linarith
      rw [if_pos h]
      constructor
      · rw [List.pairwise_cons]
        constructor
        · intro y hy
          rcases List.mem_cons.mp hy with rfl | hy'
          · exact hgap
          · have := ihx.2 y hy'
            linarith
        · exact ihx.1
      · intro r hr
        rcases List.mem_cons.mp hr with rfl | hr'
        · exact hgap
        · have := ihx.2 r hr'
          linarith
    · rw [if_neg h]
      constructor
      · rw [List.pairwise_cons]
        constructor
        · intro y hy
          have := ihx.2 y hy
          linarith
        · exact (List.pairwise_cons.mp ihx.1).2
      · intro r hr
        have := ihx.2 r hr
        linarith

theorem dedupeReadings_gap (l : List Reading)
    (h : List.Pairwise (fun a b => a.timestamp ≤ b.timestamp) l) :
    List.Pairwise (fun a b => a.timestamp + 1000 < b.timestamp) (dedupeReadings l) := by
  cases l with
  | nil => simp [dedupeReadings]
  | cons x xs => exact (dedupeGo_gap xs x h).1

theorem sortReadings_sorted (rs : List Reading) :
    List.Pairwise (fun a b => a.timestamp ≤ b.timestamp) (sortReadings rs) := by
  have h := sortBy_pairwise (fun a b : Reading => decide (a.timestamp ≤ b.timestamp))
    (by
      intro a b c hab hbc
      simp only [decide_eq_true_eq] at hab hbc ⊢
      linarith)
    (by
      intro a b
      rcases le_total a.timestamp b.timestamp with h | h
      · left
        simpa using h
      · right
        simpa using h)
    rs
  exact h.imp (by intro a b hab; simpa using hab)

/-! ## Claim theorems -/

/-- A reading fixture with only the always-present fields. -/
def mkR (sid : String) (t temp : ℚ) : Reading := ⟨sid, t, temp, none, none⟩

/-- C2: for every sensor and every batch of readings, after `ingestReadings`
the stored history contains only readings whose `sensorId` matches the
sensor, is strictly ascending by timestamp, no two stored entries are within
1 second of each other, and the history is exactly the sorted sequence with
every reading within 1 second of its immediately preceding sorted reading
dropped (the first occurrence of each cluster, in sort order, is kept). -/
theorem c2_ingestReadings_invariants (s : Sensor) (rs : List Reading)
    (hprev : ∀ r ∈ s.readings, r.sensorId = s.sensorId) :
    (∀ r ∈ (s.ingestReadings rs).readings, r.sensorId = s.sensorId)
    ∧ List.Pairwise (fun a b => a.timestamp < b.timestamp) (s.ingestReadings rs).readings
    ∧ List.Pairwise (fun a b => a.timestamp + 1000 < b.timestamp)
        (s.ingestReadings rs).readings
    ∧ (s.ingestReadings rs).readings
        = specDedupKeepFirst (sortReadings
            (s.readings ++ rs.filter (fun r => decide (r.sensorId = s.sensorId)))) := by
  have hread : (s.ingestReadings rs).readings
      = dedupeReadings (sortReadings
          (s.readings ++ rs.filter (fun r => decide (r.sensorId = s.sensorId)))) := rfl
  have hgap := dedupeReadings_gap _ (sortReadings_sorted
    (s.readings ++ rs.filter (fun r => decide (r.sensorId = s.sensorId))))
  refine ⟨?_, ?_, ?_, ?_⟩
  · intro r hr
    rw [hread] at hr
    have h1 := dedupeReadings_subset _ r hr
    rw [sortReadings] at h1
    have h2 := (mem_sortBy _ r _).mp h1
    rcases List.mem_append.mp h2 with h3 | h3
    · exact hprev r h3
    · have h4 := (List.mem_filter.mp h3).2
      simpa using h4
  · rw [hread]
    exact hgap.imp (by intro a b h; linarith)
  · rw [hread]
    exact hgap
  · rw [hread]
    exact dedupeReadings_eq_spec _

/-- A batch for the C2 witness: out-of-order timestamps, one reading of
another sensor, and readings 0 and 500 within one second of each other. -/
def ingestBatch : List Reading :=
  [mkR "a" 2000 70, mkR "a" 0 69, mkR "a" 500 71, mkR "b" 100 50]

/-- C2 witness: the invariants at a concrete sensor and batch; the foreign
reading is dropped, the in-order history keeps 0 and 2000 and drops 500
(within 1 second of the preceding sorted reading at 0). -/
theorem c2_ingestReadings_witness :
    (Sensor.ingestReadings ⟨"a", "a", none, []⟩ ingestBatch).readings
      = [mkR "a" 0 69, mkR "a" 2000 70]
    ∧ List.Pairwise (fun a b => a.timestamp + 1000 < b.timestamp)
        (Sensor.ingestReadings ⟨"a", "a", none, []⟩ ingestBatch).readings
    ∧ (Sensor.ingestReadings ⟨"a", "a", none, []⟩ ingestBatch).readings
      = specDedupKeepFirst (sortReadings ([] ++ ingestBatch.filter
          (fun r => decide (r.sensorId = "a")))) := by
  have h := c2_ingestReadings_invariants ⟨"a", "a", none, []⟩ ingestBatch (by simp)
  refine ⟨?_, h.2.2.1, h.2.2.2⟩
  norm_num [Sensor.ingestReadings, ingestBatch, mkR, sortReadings, sortBy, insertBy,
    dedupeReadings, dedupeGo, List.foldl]

/-- C5 (amended): constructing a Reading fails exactly when `tempF` is
non-numeric or NaN — an infinite numeric `tempF` is accepted — and succeeds
for every finite numeric `tempF` with no validation of the remaining
fields. -/
theorem c5_reading_construction_exact (sid : String) (ts : ℚ) (v : JSValue)
    (h b : Option ℚ) :
    ((∃ e, mkReading sid ts v h b = Except.error e)
      ↔ (v.isNumberType = false ∨ v.isNaNValue = true))
    ∧ (∀ q : ℚ, mkReading sid ts (JSValue.num (JSNumber.finite q)) h b
        = Except.ok ⟨sid, ts, JSNumber.finite q, h, b⟩) := by
  constructor
  · cases v with
    | num x => cases x <;> simp [mkReading, JSValue.isNumberType, JSValue.isNaNValue]
    | nonNumber => simp [mkReading, JSValue.isNumberType, JSValue.isNaNValue]
  · intro q
    simp [mkReading, JSValue.isNumberType, JSValue.isNaNValue]

/-- C5 counterexample: `tempF = Infinity` passes the constructor's
`typeof`/`isNaN` check, so a Reading with a non-finite temperature IS
constructed, contradicting the claim that construction fails for every
non-finite `tempF`. -/
theorem c5_infinite_tempF_counterexample :
    mkReading "s" 0 (JSValue.num JSNumber.posInf) none none
      = Except.ok ⟨"s", 0, JSNumber.posInf, none, none⟩
    ∧ mkReading "s" 0 (JSValue.num JSNumber.negInf) none none
      = Except.ok ⟨"s", 0, JSNumber.negInf, none, none⟩ := by
  constructor <;> rfl

/-- C1: `calcRateOfChange` windows the series to points within
`windowMinutes` of the series' own last timestamp, returns no result when
the series or the windowed sub-series has fewer than 2 points or the
regression denominator `n·Σx² − (Σx)²` is within `1e-10` of zero, and
otherwise returns the ordinary-least-squares slope in °F/hr (rounded at the
boundary), direction stable when `|slope| < 0.3` else rising when positive
else falling, and R² reported as 0 when the total variance is 0. -/
theorem c1_calcRateOfChange_spec (series : List SeriesPoint) (w : ℚ) :
    (series.length < 2 → calcRateOfChange series w = none)
    ∧ (∀ lastP, series.getLast? = some lastP →
        regressionWindow series w
          = series.filter (fun p => decide (lastP.timestamp - w * 60000 ≤ p.timestamp)))
    ∧ ((regressionWindow series w).length < 2 → calcRateOfChange series w = none)
    ∧ (|regDenom (regressionWindow series w)| < 1 / 10 ^ 10 →
        calcRateOfChange series w = none)
    ∧ (∀ r, calcRateOfChange series w = some r →
        r.ratePerHour = (jsRound (olsSlopeSpec (regXs (regressionWindow series w))
            (regYs (regressionWindow series w)) * 100) : ℚ) / 100
        ∧ r.direction = (if |olsSlopeSpec (regXs (regressionWindow series w))
              (regYs (regressionWindow series w))| < 3 / 10 then "stable"
            else if 0 < olsSlopeSpec (regXs (regressionWindow series w))
              (regYs (regressionWindow series w)) then "rising" else "falling")
        ∧ (regSsTot (regressionWindow series w) = 0 → r.r2 = 0)) := by
  refine ⟨?_, ?_, ?_, ?_, ?_⟩
  · intro h
    rw [calcRateOfChange, if_pos h]
  · intro lastP h
    rw [regressionWindow, h]
  · intro h
    rw [calcRateOfChange]
    by_cases h1 : series.length < 2
    · rw [if_pos h1]
    · rw [if_neg h1, if_pos h]
  · intro h
    rw [calcRateOfChange]
    by_cases h1 : series.length < 2
    · rw [if_pos h1]
    · rw [if_neg h1]
      by_cases h2 : (regressionWindow series w).length < 2
      · rw [if_pos h2]
      · rw [if_neg h2, if_pos h]
  · intro r hr
    rw [calcRateOfChange] at hr
    by_cases h1 : series.length < 2
    · rw [if_pos h1] at hr
      exact absurd hr (by simp)
    rw [if_neg h1] at hr
    by_cases h2 : (regressionWindow series w).length < 2
    · rw [if_pos h2] at hr
      exact absurd hr (by simp)
    rw [if_neg h2] at hr
    by_cases h3 : |regDenom (regressionWindow series w)| < 1 / 10 ^ 10
    · rw [if_pos h3] at hr
      exact absurd hr (by simp)
    rw [if_neg h3] at hr
    have hwne : regressionWindow series w ≠ [] := by
      intro h0
      rw [h0] at h2
      simp at h2
    have hdne : regDenom (regressionWindow series w) ≠ 0 := by
      intro h0
      apply h3
      rw [h0]
      norm_num
    have hslope := regSlope_eq_olsSlopeSpec (regressionWindow series w) hwne hdne
    rw [Option.some_inj] at hr
    subst hr
    refine ⟨?_, ?_, ?_⟩
    · rw [← hslope]
    · rw [← hslope]
    · intro h0
      simp only [regR2, h0, lt_irrefl, if_false]
      norm_num [jsRound, Int.floor_eq_iff]

/-- The series behind the C1 witness and the C9 counterexample:
timestamps 0, 15 and 30 minutes (all inside the 30-minute window of the
last point), temperatures 0, 2, 3.  The OLS slope is 6 °F/hr and
R² = 27/28, which rounds to 0.964 at the thousandths boundary. -/
def rateSeries3 : List SeriesPoint := [⟨0, 0⟩, ⟨900000, 2⟩, ⟨1800000, 3⟩]

/-- Evaluation of the regression on `rateSeries3`: slope 6 °F/hr, direction
rising, R² 27/28 rounded at the thousandths boundary to 964/1000. -/
theorem rateSeries3_eval :
    calcRateOfChange rateSeries3 30 = some ⟨6, 241 / 250, "rising"⟩ := by
  have hlast : rateSeries3.getLast? = some ⟨1800000, 3⟩ := rfl
  have hwindow : regressionWindow rateSeries3 30 = rateSeries3 := by
    simp only [regressionWindow, hlast]
    norm_num [rateSeries3]
  have hslope : regSlope rateSeries3 = 6 := by
    norm_num [regSlope, regDenom, regSumXY, regSumX, regSumY, regSumX2, regXs, regYs,
      rateSeries3]
  have hdenom : regDenom rateSeries3 = 3 / 8 := by
    norm_num [regDenom, regSumX, regSumX2, regXs, rateSeries3]
  have hr2 : regR2 rateSeries3 = 27 / 28 := by
    simp only [regR2, regSsRes, regSsTot, hslope]
    norm_num [regSumX, regSumY, regXs, regYs, rateSeries3]
  have hj1 : jsRound ((6 : ℚ) * 100) = 600 := by
    rw [jsRound]
    norm_num [Int.floor_eq_iff]
  have hj2 : jsRound ((27 / 28 : ℚ) * 1000) = 964 := by
    rw [jsRound]
    norm_num [Int.floor_eq_iff]
  have habs6 : |(6 : ℚ)| = 6 := abs_of_pos (by norm_num)
  rw [calcRateOfChange,
    if_neg (show ¬(rateSeries3.length < 2) by norm_num [rateSeries3]), hwindow,
    if_neg (show ¬(rateSeries3.length < 2) by norm_num [rateSeries3]),
    if_neg (show ¬(|regDenom rateSeries3| < 1 / 10 ^ 10) by
      rw [hdenom, abs_of_pos (by norm_num : (0 : ℚ) < 3 / 8)]
      norm_num),
    hslope, hr2, hj1, hj2, habs6]
  norm_num

/-- C1 witness: the regression at a concrete series — slope 6 °F/hr rounds
to itself, direction rising, R² 964/1000 — and a 1-point series yields no
result. -/
theorem c1_calcRateOfChange_witness :
    calcRateOfChange rateSeries3 30 = some ⟨6, 241 / 250, "rising"⟩
    ∧ (6 : ℚ) = (jsRound (olsSlopeSpec (regXs (regressionWindow rateSeries3 30))
        (regYs (regressionWindow rateSeries3 30)) * 100) : ℚ) / 100
    ∧ calcRateOfChange [⟨0, 70⟩] 30 = none := by
  refine ⟨rateSeries3_eval, ?_, ?_⟩
  · exact ((c1_calcRateOfChange_spec rateSeries3 30).2.2.2.2 ⟨6, 241 / 250, "rising"⟩
      rateSeries3_eval).1
  · exact (c1_calcRateOfChange_spec [⟨0, 70⟩] 30).1 (by norm_num)

/-- The sum of a constant list. -/
theorem list_sum_const (l : List ℚ) (c : ℚ) (h : ∀ t ∈ l, t = c) :
    l.sum = (l.length : ℚ) * c := by
  induction l with
  | nil => simp
  | cons x xs ih =>
    have hx : x = c := h x (List.mem_cons_self x xs)
    have hxs := ih (fun t ht => h t (List.mem_cons_of_mem x ht))
    simp only [List.sum_cons, List.length_cons, hx, hxs]
    push_cast
    ring

/-- The population variance of a constant list is zero. -/
theorem uniformityVariance_const (temps : List ℚ) (c : ℚ) (hne : temps ≠ [])
    (h : ∀ t ∈ temps, t = c) : uniformityVariance temps = 0 := by
  have hlen : (temps.length : ℚ) ≠ 0 := by
    have : temps.length ≠ 0 := fun h0 => hne (List.length_eq_zero.mp h0)
    exact_mod_cast this
  have hmean : uniformityMean temps = c := by
    rw [uniformityMean, list_sum_const temps c h]
    exact mul_div_cancel_left₀ c hlen
  rw [uniformityVariance]
  have hzero : (temps.map (fun t => (t - uniformityMean temps) ^ 2)).sum = 0 := by
    apply List.sum_eq_zero
    intro x hx
    rcases List.mem_map.mp hx with ⟨t, ht, rfl⟩
    rw [hmean, h t ht]
    ring
  rw [hzero, zero_div]

/-- A concrete single-sensor zone whose sensor reports `temp` at time 0. -/
def zoneAt (zid : String) (temp : ℚ) : Zone :=
  ⟨zid, zid, none, [], [⟨zid, zid, none, [mkR zid 0 temp]⟩]⟩

/-- C3 (amended): `calcUniformityScore` is null exactly when fewer than 2
zones have a current temperature; otherwise the score is in [0, 1], equals 1
when all reporting temperatures are equal, and equals 0 whenever the
standard deviation of the reporting temperatures is at or beyond the
tolerance (a spread at the tolerance does not by itself force 0). -/
theorem c3_uniformity_score_amended (zones : List Zone) (now tol : ℚ) :
    (calcUniformityScore zones now tol = none
      ↔ (zones.filterMap (fun z => z.currentTempF now)).length < 2)
    ∧ (∀ u, calcUniformityScore zones now tol = some u → 0 ≤ u ∧ u ≤ 1)
    ∧ (∀ u, calcUniformityScore zones now tol = some u →
        (∀ a ∈ zones.filterMap (fun z => z.currentTempF now),
          ∀ b ∈ zones.filterMap (fun z => z.currentTempF now), a = b) → u = 1)
    ∧ (0 < tol →
        (tol : ℝ) ≤ Real.sqrt
          ((uniformityVariance (zones.filterMap (fun z => z.currentTempF now)) : ℚ) : ℝ) →
        ∀ u, calcUniformityScore zones now tol = some u → u = 0) := by
  refine ⟨?_, ?_, ?_, ?_⟩
  · by_cases h : (zones.filterMap (fun z => z.currentTempF now)).length < 2
    · simp [calcUniformityScore, h]
    · simp [calcUniformityScore, h]
  · intro u hu
    rw [calcUniformityScore] at hu
    by_cases h : (zones.filterMap (fun z => z.currentTempF now)).length < 2
    · rw [if_pos h] at hu
      exact absurd hu (by simp)
    · rw [if_neg h, Option.some_inj] at hu
      subst hu
      exact ⟨le_max_left 0 _, max_le zero_le_one (min_le_left 1 _)⟩
  · intro u hu hall
    rw [calcUniformityScore] at hu
    by_cases h : (zones.filterMap (fun z => z.currentTempF now)).length < 2
    · rw [if_pos h] at hu
      exact absurd hu (by simp)
    rw [if_neg h, Option.some_inj] at hu
    subst hu
    have hne : zones.filterMap (fun z => z.currentTempF now) ≠ [] := by
      intro h0
      rw [h0] at h
      exact h (by norm_num)
    obtain ⟨t0, ht0⟩ := List.exists_mem_of_ne_nil _ hne
    have hvar : uniformityVariance (zones.filterMap (fun z => z.currentTempF now)) = 0 :=
      uniformityVariance_const _ t0 hne (fun t ht => hall t ht t0 ht0)
    rw [hvar]
    norm_num
  · intro htol hle u hu
    rw [calcUniformityScore] at hu
    by_cases h : (zones.filterMap (fun z => z.currentTempF now)).length < 2
    · rw [if_pos h] at hu
      exact absurd hu (by simp)
    rw [if_neg h, Option.some_inj] at hu
    subst hu
    have htolR : (0 : ℝ) < (tol : ℚ) := by exact_mod_cast htol
    have hdiv : (1 : ℝ) ≤ Real.sqrt
        ((uniformityVariance (zones.filterMap (fun z => z.currentTempF now)) : ℚ) : ℝ)
          / (tol : ℝ) := (one_le_div htolR).mpr hle
    have he : (1 : ℝ) - Real.sqrt
        ((uniformityVariance (zones.filterMap (fun z => z.currentTempF now)) : ℚ) : ℝ)
          / (tol : ℝ) ≤ 0 := by linarith
    rw [min_eq_right (le_trans he zero_le_one), max_eq_left he]

/-- C3 counterexample: two zones at 70 °F and 72 °F with the default 2 °F
tolerance — the spread equals the tolerance, yet the score is 1/2, not 0
(the standard deviation of the two temperatures is only 1). -/
theorem c3_spread_at_tolerance_counterexample :
    calcUniformityScore [zoneAt "za" 70, zoneAt "zb" 72] 0 2 = some (1 / 2)
    ∧ ((1 : ℝ) / 2 ≠ 0)
    ∧ Zone.currentTempF (zoneAt "za" 70) 0 = some 70
    ∧ Zone.currentTempF (zoneAt "zb" 72) 0 = some 72 := by
  have hs70 : Sensor.currentTempF ⟨"za", "za", none, [mkR "za" 0 70]⟩ 0 = some 70 := by
    simp only [Sensor.currentTempF, Sensor.latestReading]
    rw [show ([mkR "za" 0 70] : List Reading).getLast? = some (mkR "za" 0 70) from rfl]
    norm_num [Reading.isStale, Reading.ageMinutes, mkR]
  have hs72 : Sensor.currentTempF ⟨"zb", "zb", none, [mkR "zb" 0 72]⟩ 0 = some 72 := by
    simp only [Sensor.currentTempF, Sensor.latestReading]
    rw [show ([mkR "zb" 0 72] : List Reading).getLast? = some (mkR "zb" 0 72) from rfl]
    norm_num [Reading.isStale, Reading.ageMinutes, mkR]
  have ha : Zone.currentTempF (zoneAt "za" 70) 0 = some 70 := by
    norm_num [zoneAt, Zone.currentTempF, List.filterMap_cons, hs70]
  have hb : Zone.currentTempF (zoneAt "zb" 72) 0 = some 72 := by
    norm_num [zoneAt, Zone.currentTempF, List.filterMap_cons, hs72]
  have htemps : ([zoneAt "za" 70, zoneAt "zb" 72].filterMap
      (fun z => z.currentTempF 0)) = [70, 72] := by
    simp [List.filterMap, ha, hb]
  have hvar : uniformityVariance [70, 72] = 1 := by
    norm_num [uniformityVariance, uniformityMean]
  refine ⟨?_, by norm_num, ha, hb⟩
  rw [calcUniformityScore]
  rw [if_neg (by rw [htemps]; norm_num)]
  rw [htemps, hvar]
  norm_num

theorem jsRound_zero : jsRound 0 = 0 := by
  rw [jsRound]
  norm_num [Int.floor_eq_iff]

theorem roundTenths_zero : roundTenths 0 = 0 := by
  rw [roundTenths, show ((0 : ℚ) * 10) = 0 from by norm_num, jsRound_zero]
  norm_num

theorem zoneAt_currentTempF (zid : String) (t : ℚ) :
    (zoneAt zid t).currentTempF 0 = some t := by
  have hs : Sensor.currentTempF ⟨zid, zid, none, [mkR zid 0 t]⟩ 0 = some t := by
    simp only [Sensor.currentTempF, Sensor.latestReading]
    rw [show ([mkR zid 0 t] : List Reading).getLast? = some (mkR zid 0 t) from rfl]
    norm_num [Reading.isStale, Reading.ageMinutes, mkR]
  norm_num [zoneAt, Zone.currentTempF, List.filterMap_cons, hs]

/-- C4 (amended): `estimateHeatLoss` yields 0 for every non-positive
resistance, and a negative per-zone override in `analyzeZones` likewise
yields a heat loss of 0; but an override of exactly 0 is falsy to the
JavaScript `||` fallback, so it is treated as unspecified and the heat loss
is computed with the default resistance 1.0. -/
theorem c4_heat_loss_resistance_amended :
    (∀ indoor outdoor R : ℚ, R ≤ 0 → estimateHeatLoss indoor outdoor R = 0)
    ∧ (∀ (weather : WeatherSnapshot) (tr : List (String × ℚ)) (now : ℚ) (zone : Zone)
        (temp wt Rv : ℚ), zone.currentTempF now = some temp →
        weather.tempF = some wt →
        jsMapGet tr zone.zoneId = some Rv → Rv < 0 →
        (analyzeZone (some weather) tr now zone).heatLossBtuHr = some 0)
    ∧ (∀ (weather : WeatherSnapshot) (tr : List (String × ℚ)) (now : ℚ) (zone : Zone)
        (temp wt : ℚ), zone.currentTempF now = some temp →
        weather.tempF = some wt →
        jsMapGet tr zone.zoneId = some 0 →
        (analyzeZone (some weather) tr now zone).heatLossBtuHr
          = some (roundTenths (estimateHeatLoss temp wt 1)))
    ∧ (∀ (zones : List Zone) (weather : Option WeatherSnapshot)
        (tr : List (String × ℚ)) (now : ℚ) (zone : Zone), zone ∈ zones →
        analyzeZone weather tr now zone ∈ (analyzeZones zones weather tr now).zoneAnalyses) := by
  refine ⟨?_, ?_, ?_, ?_⟩
  · intro indoor outdoor R h
    rw [estimateHeatLoss, if_pos h]
  · intro weather tr now zone temp wt Rv h1 h2 h3 h4
    simp only [analyzeZone, Option.some_bind, h1, h2]
    simp only [resolveResistance, h3]
    rw [if_neg (ne_of_lt h4)]
    simp only [estimateHeatLoss]
    rw [if_pos (le_of_lt h4), roundTenths_zero]
  · intro weather tr now zone temp wt h1 h2 h3
    simp only [analyzeZone, Option.some_bind, h1, h2]
    simp only [resolveResistance, h3]
    norm_num
  · intro zones weather tr now zone hmem
    simp only [analyzeZones]
    exact List.mem_map_of_mem _ hmem

/-- The outdoor snapshot used by the C4 concrete results: 50 °F outside. -/
def weather50 : WeatherSnapshot := ⟨0, some 50, none⟩

/-- C4 counterexample: a zone at 70 °F with outdoor 50 °F and a per-zone
thermal-resistance override of exactly 0 gets heat loss 20 (computed with
the default resistance 1.0), not the 0 the claim requires for R ≤ 0. -/
theorem c4_zero_override_counterexample :
    (analyzeZone (some weather50) [("z1", 0)] 0 (zoneAt "z1" 70)).heatLossBtuHr = some 20
    ∧ some (20 : ℚ) ≠ some (0 : ℚ) := by
  have hjr : jsRound ((20 : ℚ) * 10) = 200 := by
    rw [jsRound]
    norm_num [Int.floor_eq_iff]
  have hmain := (c4_heat_loss_resistance_amended).2.2.1 weather50 [("z1", 0)] 0
    (zoneAt "z1" 70) 70 50 (zoneAt_currentTempF "z1" 70) rfl rfl
  constructor
  · rw [hmain, show estimateHeatLoss 70 50 1 = 20 from by
      simp only [estimateHeatLoss]
      norm_num]
    rw [roundTenths, hjr]
    norm_num
  · norm_num

/-- C4 witness: a strictly negative override does yield heat loss 0 through
`analyzeZones`' per-zone analysis. -/
theorem c4_negative_override_witness :
    (analyzeZone (some weather50) [("zn", -2)] 0 (zoneAt "zn" 70)).heatLossBtuHr
      = some 0 :=
  (c4_heat_loss_resistance_amended).2.1 weather50 [("zn", -2)] 0 (zoneAt "zn" 70)
    70 50 (-2) (zoneAt_currentTempF "zn" 70) rfl rfl (by norm_num)

/-- C9 (amended): every rounded numeric output of the thermal-analysis
functions is an exact multiple of its boundary precision — rates to
hundredths, R² to thousandths (not hundredths), zone deltas, whole-house
spreads, heat losses and indoor/outdoor deltas to tenths. -/
theorem c9_rounded_outputs_amended :
    (∀ (series : List SeriesPoint) (w : ℚ) (r : RateResult),
        calcRateOfChange series w = some r →
        (∃ k : ℤ, r.ratePerHour = (k : ℚ) / 100) ∧ (∃ k : ℤ, r.r2 = (k : ℚ) / 1000))
    ∧ (∀ (zA zB : Zone) (now : ℚ) (d : DeltaResult),
        calcZoneDelta zA zB now = some d →
        (∃ k : ℤ, d.deltaF = (k : ℚ) / 10) ∧ (∃ k : ℤ, d.abs = (k : ℚ) / 10))
    ∧ (∀ (zones : List Zone) (now : ℚ) (sp : SpreadResult),
        calcWholeHouseSpread zones now = some sp →
        ∃ k : ℤ, sp.spreadF = (k : ℚ) / 10)
    ∧ (∀ (weather : Option WeatherSnapshot) (tr : List (String × ℚ)) (now : ℚ)
        (zone : Zone) (q : ℚ),
        (analyzeZone weather tr now zone).heatLossBtuHr = some q →
        ∃ k : ℤ, q = (k : ℚ) / 10)
    ∧ (∀ (weather : Option WeatherSnapshot) (tr : List (String × ℚ)) (now : ℚ)
        (zone : Zone) (q : ℚ),
        (analyzeZone weather tr now zone).indoorOutdoorDeltaF = some q →
        ∃ k : ℤ, q = (k : ℚ) / 10) := by
  refine ⟨?_, ?_, ?_, ?_, ?_⟩
  · intro series w r hr
    rw [calcRateOfChange] at hr
    by_cases h1 : series.length < 2
    · rw [if_pos h1] at hr
      exact absurd hr (by simp)
    rw [if_neg h1] at hr
    by_cases h2 : (regressionWindow series w).length < 2
    · rw [if_pos h2] at hr
      exact absurd hr (by simp)
    rw [if_neg h2] at hr
    by_cases h3 : |regDenom (regressionWindow series w)| < 1 / 10 ^ 10
    · rw [if_pos h3] at hr
      exact absurd hr (by simp)
    rw [if_neg h3, Option.some_inj] at hr
    subst hr
    exact ⟨⟨jsRound (regSlope (regressionWindow series w) * 100), rfl⟩,
      ⟨jsRound (regR2 (regressionWindow series w) * 1000), rfl⟩⟩
  · intro zA zB now d h
    simp only [calcZoneDelta] at h
    cases hA : zA.currentTempF now with
    | none =>
      rw [hA] at h
      exact absurd h (by simp)
    | some tA =>
      rw [hA] at h
      cases hB : zB.currentTempF now with
      | none =>
        rw [hB] at h
        exact absurd h (by simp)
      | some tB =>
        rw [hB, Option.some_inj] at h
        subst h
        exact ⟨⟨jsRound ((tA - tB) * 10), by simp [roundTenths]⟩,
          ⟨jsRound (|tA - tB| * 10), by simp [roundTenths]⟩⟩
  · intro zones now sp h
    rw [calcWholeHouseSpread] at h
    by_cases hlen : (coveredZones zones now).length < 2
    · rw [if_pos hlen] at h
      exact absurd h (by simp)
    rw [if_neg hlen] at h
    cases hh : (sortBy (fun a b => decide (a.temp ≤ b.temp)) (coveredZones zones now)).head? with
    | none =>
      rw [hh] at h
      exact absurd h (by simp)
    | some coldest =>
      rw [hh] at h
      cases hg : (sortBy (fun a b => decide (a.temp ≤ b.temp)) (coveredZones zones now)).getLast? with
      | none =>
        rw [hg] at h
        exact absurd h (by simp)
      | some warmest =>
        rw [hg, Option.some_inj] at h
        subst h
        exact ⟨jsRound ((warmest.temp - coldest.temp) * 10), by simp [roundTenths]⟩
  · intro weather tr now zone q h
    simp only [analyzeZone] at h
    cases hA : zone.currentTempF now with
    | none =>
      rw [hA] at h
      exact absurd h (by simp)
    | some temp =>
      rw [hA] at h
      cases hW : weather.bind (fun w => w.tempF) with
      | none =>
        rw [hW] at h
        exact absurd h (by simp)
      | some wt =>
        rw [hW] at h
        simp only [Option.some_inj] at h
        subst h
        exact ⟨jsRound (estimateHeatLoss temp wt
          (resolveResistance tr zone.zoneId) * 10), by simp [roundTenths]⟩
  · intro weather tr now zone q h
    simp only [analyzeZone] at h
    cases hA : zone.currentTempF now with
    | none =>
      rw [hA] at h
      exact absurd h (by simp)
    | some temp =>
      rw [hA] at h
      cases hW : weather.bind (fun w => w.tempF) with
      | none =>
        rw [hW] at h
        exact absurd h (by simp)
      | some wt =>
        rw [hW] at h
        simp only [Option.some_inj] at h
        subst h
        exact ⟨jsRound ((temp - wt) * 10), by simp [roundTenths]⟩

/-- C9 counterexample: `calcRateOfChange` rounds R² to thousandths, not
hundredths — the concrete series yields R² = 241/250 = 0.964, which is not
an integer multiple of 1/100. -/
theorem c9_r2_not_hundredths_counterexample :
    calcRateOfChange rateSeries3 30 = some ⟨6, 241 / 250, "rising"⟩
    ∧ ¬ ∃ k : ℤ, (241 : ℚ) / 250 = (k : ℚ) / 100 := by
  refine ⟨rateSeries3_eval, ?_⟩
  rintro ⟨k, hk⟩
  rw [div_eq_div_iff (by norm_num) (by norm_num)] at hk
  have hk2 : (24100 : ℚ) = (250 * k : ℤ) := by push_cast; linarith
  have hk3 : (24100 : ℤ) = 250 * k := by exact_mod_cast hk2
  omega

/-- C9 witness: the rounding multiples at concrete inputs — the concrete
regression result and a concrete zone delta. -/
theorem c9_rounded_outputs_witness :
    ((∃ k : ℤ, (6 : ℚ) = (k : ℚ) / 100) ∧ ∃ k : ℤ, (241 : ℚ) / 250 = (k : ℚ) / 1000)
    ∧ ∃ k : ℤ, (analyzeZone (some weather50) [] 0 (zoneAt "zw" 72)).indoorOutdoorDeltaF
        = some ((k : ℚ) / 10) := by
  constructor
  · exact (c9_rounded_outputs_amended).1 rateSeries3 30 ⟨6, 241 / 250, "rising"⟩
      rateSeries3_eval
  · have h : (analyzeZone (some weather50) [] 0 (zoneAt "zw" 72)).indoorOutdoorDeltaF
        = some (roundTenths (72 - 50)) := by
      simp only [analyzeZone, Option.some_bind, zoneAt_currentTempF,
        show weather50.tempF = some 50 from rfl]
    obtain ⟨k, hk⟩ := (c9_rounded_outputs_amended).2.2.2.2 (some weather50) [] 0
      (zoneAt "zw" 72) (roundTenths (72 - 50)) h
    exact ⟨k, by rw [h, hk]⟩

/-- A filtered list is strictly shorter when some element fails the
predicate. -/
theorem filter_length_lt_of_not {α : Type} (l : List α) (p : α → Bool) (x : α)
    (hx : x ∈ l) (hpx : p x = false) : (l.filter p).length < l.length := by
  induction l with
  | nil => cases hx
  | cons a l ih =>
    rcases List.mem_cons.mp hx with rfl | hx'
    · rw [List.filter_cons, if_neg (by simp [hpx])]
      exact Nat.lt_succ_of_le (List.length_filter_le p l)
    · rw [List.filter_cons]
      by_cases hpa : p a = true
      · rw [if_pos (by simp [hpa])]
        simpa using Nat.succ_lt_succ (ih hx')
      · rw [if_neg (by simpa using hpa)]
        exact Nat.lt_succ_of_le (le_of_lt (ih hx'))

/-- C8: `coverageStatus` is exactly one of uncovered, partial, covered:
uncovered for a zone with no sensors or with no online sensor (in
particular when every sensor is offline), partial when some but not all
sensors are online, covered when the zone has sensors and all are
online. -/
theorem c8_coverage_status_cases (z : Zone) (now : ℚ) :
    (z.coverageStatus now = "uncovered" ∨ z.coverageStatus now = "partial"
      ∨ z.coverageStatus now = "covered")
    ∧ ((z.sensors.length = 0 ∨ ∀ s ∈ z.sensors, s.status now = "offline") →
        z.coverageStatus now = "uncovered")
    ∧ (((∃ s ∈ z.sensors, s.status now = "online")
        ∧ (∃ s ∈ z.sensors, ¬ s.status now = "online")) →
        z.coverageStatus now = "partial")
    ∧ ((z.sensors ≠ [] ∧ ∀ s ∈ z.sensors, s.status now = "online") →
        z.coverageStatus now = "covered") := by
  refine ⟨?_, ?_, ?_, ?_⟩
  · rw [Zone.coverageStatus]
    split_ifs <;> simp
  · rintro (h0 | hall)
    · rw [Zone.coverageStatus, if_pos h0]
    · by_cases h1 : z.sensors.length = 0
      · rw [Zone.coverageStatus, if_pos h1]
      · have hnil : z.sensors.filter (fun s => decide (s.status now = "online")) = [] := by
          rw [List.filter_eq_nil_iff]
          intro s hs
          rw [hall s hs]
          simp
        rw [Zone.coverageStatus, if_neg h1, if_pos (by rw [hnil]; rfl)]
  · rintro ⟨⟨sOn, hsOn, hOn⟩, ⟨sOff, hsOff, hOff⟩⟩
    have h1 : z.sensors.length ≠ 0 := by
      intro h0
      rw [List.length_eq_zero.mp h0] at hsOn
      cases hsOn
    have hpos : (z.sensors.filter (fun s => decide (s.status now = "online"))).length ≠ 0 := by
      have : sOn ∈ z.sensors.filter (fun s => decide (s.status now = "online")) :=
        List.mem_filter.mpr ⟨hsOn, by simp [hOn]⟩
      intro h0
      rw [List.length_eq_zero.mp h0] at this
      cases this
    have hlt : (z.sensors.filter (fun s => decide (s.status now = "online"))).length
        < z.sensors.length :=
      filter_length_lt_of_not _ _ sOff hsOff (by simpa using hOff)
    rw [Zone.coverageStatus, if_neg h1, if_neg hpos, if_pos hlt]
  · rintro ⟨hne, hall⟩
    have hself : z.sensors.filter (fun s => decide (s.status now = "online")) = z.sensors := by
      rw [List.filter_eq_self]
      intro s hs
      simp [hall s hs]
    have h1 : z.sensors.length ≠ 0 := by
      intro h0
      exact hne (List.length_eq_zero.mp h0)
    rw [Zone.coverageStatus, if_neg h1, if_neg (by rw [hself]; exact h1),
      if_neg (by rw [hself]; exact lt_irrefl _)]

/-- A sensor whose only reading is fresh at time 0 (status online). -/
def onlineSensor (sid : String) : Sensor := ⟨sid, sid, none, [mkR sid 0 70]⟩

/-- A sensor with no readings (status offline). -/
def offlineSensor (sid : String) : Sensor := ⟨sid, sid, none, []⟩

/-- C8 witness: with 2 sensors, one online and one offline gives partial,
both offline gives uncovered, both online gives covered. -/
theorem c8_coverage_status_witness :
    Zone.coverageStatus ⟨"zp", "zp", none, [], [onlineSensor "s1", offlineSensor "s2"]⟩ 0
      = "partial"
    ∧ Zone.coverageStatus ⟨"zu", "zu", none, [], [offlineSensor "s1", offlineSensor "s2"]⟩ 0
      = "uncovered"
    ∧ Zone.coverageStatus ⟨"zv", "zv", none, [], [onlineSensor "s1", onlineSensor "s2"]⟩ 0
      = "covered" := by
  have hon : ∀ sid, Sensor.status (onlineSensor sid) 0 = "online" := by
    intro sid
    simp only [Sensor.status, Sensor.latestReading, onlineSensor]
    rw [show ([mkR sid 0 70] : List Reading).getLast? = some (mkR sid 0 70) from rfl]
    norm_num [Reading.isStale, Reading.ageMinutes, mkR]
  have hoff : ∀ sid, Sensor.status (offlineSensor sid) 0 = "offline" := fun _ => rfl
  refine ⟨?_, ?_, ?_⟩
  · exact (c8_coverage_status_cases _ 0).2.2.1
      ⟨⟨onlineSensor "s1", by simp, hon "s1"⟩,
        ⟨offlineSensor "s2", by simp, by rw [hoff]; simp⟩⟩
  · exact (c8_coverage_status_cases _ 0).2.1
      (Or.inr (by
        intro s hs
        rcases List.mem_cons.mp hs with rfl | hs'
        · exact hoff _
        · rcases List.mem_cons.mp hs' with rfl | hs''
          · exact hoff _
          · cases hs''))
  · exact (c8_coverage_status_cases _ 0).2.2.2
      ⟨by simp, by
        intro s hs
        rcases List.mem_cons.mp hs with rfl | hs'
        · exact hon _
        · rcases List.mem_cons.mp hs' with rfl | hs''
          · exact hon _
          · cases hs''⟩

/-- A zone with ONE sensor contributing two in-window readings to the same
5-minute bucket. -/
def twoReadingZone : Zone :=
  ⟨"zt", "zt", none, [], [⟨"ts", "ts", none, [mkR "ts" 0 70, mkR "ts" 100000 72]⟩]⟩

/-- C10: every point of `Zone.getTimeSeries` sits at a bucket midpoint and
reports `sensorCount` equal to the number of in-window readings that fell
into that bucket across all sensors — not the number of distinct sensors:
concretely, a zone with a single sensor contributing two readings to one
bucket yields one point with `sensorCount = 2`. -/
theorem c10_timeSeries_sensorCount :
    (∀ (z : Zone) (hours bucketMinutes now : ℚ) (p : TimeSeriesPoint),
        p ∈ z.getTimeSeries hours bucketMinutes now →
        ∃ k : ℤ,
          p.timestamp = (k : ℚ) * (bucketMinutes * 60000) + (bucketMinutes * 60000) / 2
          ∧ p.sensorCount = ((z.windowReadings hours now).filter
              (fun r => decide (bucketIndex (bucketMinutes * 60000) r.timestamp = k))).length)
    ∧ twoReadingZone.getTimeSeries 1 5 200000 = [⟨150000, 71, 2⟩] := by
  constructor
  · intro z hours bucketMinutes now p hp
    rw [Zone.getTimeSeries] at hp
    by_cases h0 : (z.windowReadings hours now).length = 0
    · rw [if_pos h0] at hp
      cases hp
    rw [if_neg h0] at hp
    have hp' := (mem_sortBy _ _ _).mp hp
    rcases List.mem_map.mp hp' with ⟨k, hk, rfl⟩
    exact ⟨k, rfl, by simp [bucketTemps]⟩
  · have hwr : twoReadingZone.windowReadings 1 200000
        = [mkR "ts" 0 70, mkR "ts" 100000 72] := by
      norm_num [twoReadingZone, Zone.windowReadings, Sensor.readingsInWindow, mkR]
    have hb0 : bucketIndex ((5 : ℚ) * 60000) 0 = 0 := by
      rw [bucketIndex]
      norm_num
    have hb1 : bucketIndex ((5 : ℚ) * 60000) 100000 = 0 := by
      rw [bucketIndex]
      norm_num [Int.floor_eq_iff]
    have hkeys : bucketKeys twoReadingZone 1 5 200000 = [0] := by
      rw [bucketKeys, hwr]
      simp [mkR, hb0, hb1]
    have htemps : bucketTemps twoReadingZone 1 5 200000 0 = [70, 72] := by
      rw [bucketTemps, hwr]
      simp [mkR, hb0, hb1]
    rw [Zone.getTimeSeries, if_neg (by rw [hwr]; norm_num), hkeys]
    simp only [List.map_cons, List.map_nil, htemps]
    norm_num [sortBy, insertBy, List.foldl]

/-- C10 witness: the bucket-count characterisation applied at the concrete
point — its `sensorCount` 2 counts the two same-sensor readings of its
bucket. -/
theorem c10_timeSeries_sensorCount_witness :
    ∃ k : ℤ,
      (150000 : ℚ) = (k : ℚ) * ((5 : ℚ) * 60000) + ((5 : ℚ) * 60000) / 2
      ∧ 2 = ((twoReadingZone.windowReadings 1 200000).filter
          (fun r => decide (bucketIndex ((5 : ℚ) * 60000) r.timestamp = k))).length := by
  have h := (c10_timeSeries_sensorCount).1 twoReadingZone 1 5 200000 ⟨150000, 71, 2⟩
    (by rw [(c10_timeSeries_sensorCount).2]; simp)
  exact h

/-- The canonical pair key does not depend on the order of its arguments. -/
theorem pairKey_comm (a b : String) : pairKey a b = pairKey b a := by
  rw [pairKey, pairKey]
  by_cases hab : a ≤ b
  · by_cases hba : b ≤ a
    · rw [le_antisymm hab hba]
    · rw [if_pos hab, if_neg hba]
  · have hba : b ≤ a := le_of_not_le hab
    rw [if_neg hab, if_pos hba]

/-- Filtering by a stronger predicate yields at most as many elements. -/
theorem filter_length_le_of_imp {α : Type} (l : List α) (p q : α → Bool)
    (h : ∀ x ∈ l, p x = true → q x = true) :
    (l.filter p).length ≤ (l.filter q).length := by
  induction l with
  | nil => simp
  | cons a l ih =>
    have ih' := ih (fun x hx => h x (List.mem_cons_of_mem a hx))
    rw [List.filter_cons, List.filter_cons]
    by_cases hp : p a = true
    · have hq : q a = true := h a (List.mem_cons_self a l) hp
      rw [if_pos (by simpa using hp), if_pos (by simpa using hq)]
      simpa using Nat.succ_le_succ ih'
    · rw [if_neg (by simpa using hp)]
      by_cases hq : q a = true
      · rw [if_pos (by simpa using hq)]
        exact le_trans ih' (Nat.le_succ _)
      · rw [if_neg (by simpa using hq)]
        exact ih'

/-- At most one delta entry with a given canonical pair key is ever pushed:
the key is marked processed before any entry with it can be pushed again. -/
theorem collectDeltasGo_key_count (zoneEntries : List (String × Zone)) (now : ℚ)
    (k : String) :
    ∀ (pairs : List (Zone × String)) (processed : List String),
      ((collectDeltasGo zoneEntries now processed pairs).filter
        (fun e => decide (pairKey e.zoneAId e.zoneBId = k))).length
        ≤ (if k ∈ processed then 0 else 1) := by
  intro pairs
  induction pairs with
  | nil =>
    intro processed
    rw [collectDeltasGo]
    split_ifs <;> norm_num
  | cons pr rest ih =>
    intro processed
    obtain ⟨z, adjId⟩ := pr
    rw [collectDeltasGo]
    by_cases hmem : pairKey z.zoneId adjId ∈ processed
    · rw [if_pos hmem]
      exact ih processed
    · rw [if_neg hmem]
      cases hlook : jsMapGet zoneEntries adjId with
      | none =>
        refine le_trans (ih (pairKey z.zoneId adjId :: processed)) ?_
        by_cases hk : k ∈ processed
        · rw [if_pos (List.mem_cons_of_mem _ hk), if_pos hk]
        · rw [if_neg hk]
          split_ifs <;> norm_num
      | some adjZone =>
        rw [List.filter_cons]
        by_cases hpk : pairKey z.zoneId adjId = k
        · rw [if_pos (by simpa using hpk)]
          have htail := ih (pairKey z.zoneId adjId :: processed)
          rw [if_pos (by rw [hpk]; exact List.mem_cons_self k processed)] at htail
          have htail0 : ((collectDeltasGo zoneEntries now
              (pairKey z.zoneId adjId :: processed) rest).filter
                (fun e => decide (pairKey e.zoneAId e.zoneBId = k))).length = 0 :=
            Nat.le_zero.mp htail
          rw [if_neg (hpk ▸ hmem), List.length_cons, htail0]
        · rw [if_neg (by simpa using hpk)]
          refine le_trans (ih (pairKey z.zoneId adjId :: processed)) ?_
          by_cases hk : k ∈ processed
          · rw [if_pos (List.mem_cons_of_mem _ hk), if_pos hk]
          · rw [if_neg hk, if_neg (by
              intro hkc
              rcases List.mem_cons.mp hkc with h | h
              · exact hpk h.symm
              · exact hk h)]

theorem lookup_mem_keys {α : Type} (l : List (String × α)) (k : String) (v : α)
    (h : l.lookup k = some v) : k ∈ l.map Prod.fst := by
  induction l with
  | nil => simp [List.lookup] at h
  | cons p l ih =>
    obtain ⟨k', v'⟩ := p
    by_cases hk : k = k'
    · simp [hk]
    · simp only [List.lookup, show (k == k') = false from by simpa using hk] at h
      exact List.mem_cons_of_mem _ (ih h)

theorem jsMapGet_mem_keys {α : Type} (entries : List (String × α)) (k : String)
    (v : α) (h : jsMapGet entries k = some v) : k ∈ entries.map Prod.fst := by
  rw [jsMapGet] at h
  have := lookup_mem_keys _ _ _ h
  rw [List.map_reverse, List.mem_reverse] at this
  exact this

/-- Every pushed delta entry names an adjacent zone id that the zone map
resolves: a dangling adjacency pushes nothing. -/
theorem collectDeltasGo_zoneBId_mem (zoneEntries : List (String × Zone)) (now : ℚ) :
    ∀ (pairs : List (Zone × String)) (processed : List String)
      (e : ZoneDeltaResult), e ∈ collectDeltasGo zoneEntries now processed pairs →
      e.zoneBId ∈ zoneEntries.map Prod.fst := by
  intro pairs
  induction pairs with
  | nil =>
    intro processed e he
    rw [collectDeltasGo] at he
    cases he
  | cons pr rest ih =>
    intro processed e he
    obtain ⟨z, adjId⟩ := pr
    rw [collectDeltasGo] at he
    by_cases hmem : pairKey z.zoneId adjId ∈ processed
    · rw [if_pos hmem] at he
      exact ih processed e he
    · rw [if_neg hmem] at he
      cases hlook : jsMapGet zoneEntries adjId with
      | none =>
        rw [hlook] at he
        exact ih _ e he
      | some adjZone =>
        rw [hlook] at he
        rcases List.mem_cons.mp he with rfl | he'
        · exact jsMapGet_mem_keys _ _ _ hlook
        · exact ih _ e he'

/-- C7: `analyzeZones` produces at most one adjacent-pair delta entry per
unordered pair of zone identifiers, whichever zone declares the adjacency
and in whatever order, and a declared adjacency whose target zone id does
not exist produces no entry (and, the function being total, no error). -/
theorem c7_adjacent_pair_dedup :
    (∀ (zones : List Zone) (now : ℚ) (a b : String),
      ((collectDeltas zones now).filter (fun e =>
        decide ((e.zoneAId = a ∧ e.zoneBId = b) ∨ (e.zoneAId = b ∧ e.zoneBId = a)))).length
        ≤ 1)
    ∧ (∀ (zones : List Zone) (now : ℚ) (e : ZoneDeltaResult),
        e ∈ collectDeltas zones now → e.zoneBId ∈ zones.map (fun z => z.zoneId))
    ∧ (∀ (zones : List Zone) (weather : Option WeatherSnapshot)
        (tr : List (String × ℚ)) (now : ℚ),
        (analyzeZones zones weather tr now).deltas = collectDeltas zones now) := by
  refine ⟨?_, ?_, ?_⟩
  · intro zones now a b
    have hcount := collectDeltasGo_key_count (zones.map (fun z => (z.zoneId, z))) now
      (pairKey a b)
      ((zones.map (fun z => z.adjacentZoneIds.map (fun adjId => (z, adjId)))).flatten) []
    rw [if_neg (List.not_mem_nil _)] at hcount
    rw [collectDeltas]
    refine le_trans (filter_length_le_of_imp _ _ _ ?_) hcount
    intro e _ he
    rw [decide_eq_true_eq] at he ⊢
    rcases he with ⟨h1, h2⟩ | ⟨h1, h2⟩
    · rw [h1, h2]
    · rw [h1, h2, pairKey_comm]
  · intro zones now e he
    rw [collectDeltas] at he
    have := collectDeltasGo_zoneBId_mem (zones.map (fun z => (z.zoneId, z))) now _ [] e he
    simpa using this
  · intro zones weather tr now
    simp [analyzeZones]

/-- Two zones that each declare the other adjacent. -/
def zonePairFixture : List Zone :=
  [⟨"za", "za", none, ["zb"], []⟩, ⟨"zb", "zb", none, ["za"], []⟩]

/-- C7 witness: the mutual declaration produces exactly one entry for the
unordered pair, and its target id exists in the zone list. -/
theorem c7_adjacent_pair_dedup_witness :
    collectDeltas zonePairFixture 0
      = [⟨"za", "zb", "za", "zb", none⟩]
    ∧ ((collectDeltas zonePairFixture 0).filter (fun e =>
        decide ((e.zoneAId = "za" ∧ e.zoneBId = "zb")
          ∨ (e.zoneAId = "zb" ∧ e.zoneBId = "za")))).length ≤ 1
    ∧ ("zb" : String) ∈ zonePairFixture.map (fun z => z.zoneId) := by
  have heval : collectDeltas zonePairFixture 0 = [⟨"za", "zb", "za", "zb", none⟩] := by
    norm_num [collectDeltas, collectDeltasGo, zonePairFixture, pairKey,
      String.le_iff_toList_le, jsMapGet, List.lookup, calcZoneDelta, Zone.currentTempF,
      show ((['z', 'b'] : List Char) ≤ ['z', 'a']) = False from by decide,
      show ((['z', 'a'] : List Char) ≤ ['z', 'b']) = True from by decide]
  refine ⟨heval, (c7_adjacent_pair_dedup).1 zonePairFixture 0 "za" "zb", ?_⟩
  exact (c7_adjacent_pair_dedup).2.1 zonePairFixture 0 ⟨"za", "zb", "za", "zb", none⟩
    (by rw [heval]; simp)

/-- The four temperature-band anomaly codes. -/
def tempBandCodes : List String :=
  ["TEMP_DANGER_LOW", "TEMP_LOW", "TEMP_DANGER_HIGH", "TEMP_HIGH"]

theorem zoneTempAnomalies_fields (z : Zone) (now : ℚ) (T : Thresholds) :
    ∀ a ∈ zoneTempAnomalies z now T, a.zoneId = z.zoneId ∧ a.code ∈ tempBandCodes := by
  intro a ha
  rw [zoneTempAnomalies] at ha
  cases htemp : z.currentTempF now with
  | none =>
    simp only [htemp] at ha
    cases ha
  | some temp =>
    simp only [htemp] at ha
    split_ifs at ha with h1 h2 h3 h4 <;> simp_all [tempBandCodes]

theorem zoneTempAnomalies_len (z : Zone) (now : ℚ) (T : Thresholds) :
    (zoneTempAnomalies z now T).length ≤ 1 := by
  rw [zoneTempAnomalies]
  cases htemp : z.currentTempF now with
  | none =>
    simp only [htemp]
    norm_num
  | some temp =>
    simp only [htemp]
    split_ifs <;> norm_num

theorem zoneRateAnomalies_fields (z : Zone) (rm : List (String × RateResult))
    (T : Thresholds) :
    ∀ a ∈ zoneRateAnomalies z rm T, a.zoneId = z.zoneId ∧ a.code = "RAPID_CHANGE" := by
  intro a ha
  rw [zoneRateAnomalies] at ha
  cases hr : jsMapGet rm z.zoneId with
  | none =>
    simp only [hr] at ha
    cases ha
  | some rate =>
    simp only [hr] at ha
    split_ifs at ha <;> simp_all

theorem zoneCoverageAnomalies_fields (z : Zone) (now : ℚ) :
    ∀ a ∈ zoneCoverageAnomalies z now,
      a.zoneId = z.zoneId
        ∧ (a.code = "ALL_SENSORS_OFFLINE" ∨ a.code = "PARTIAL_COVERAGE") := by
  intro a ha
  rw [zoneCoverageAnomalies] at ha
  split_ifs at ha <;> simp_all

theorem zoneSpreadAnomalies_fields (z : Zone) (now : ℚ) (T : Thresholds) :
    ∀ a ∈ zoneSpreadAnomalies z now T,
      a.zoneId = z.zoneId ∧ a.code = "INTRA_ZONE_SPREAD" := by
  intro a ha
  rw [zoneSpreadAnomalies] at ha
  cases hs : z.tempSpreadF now with
  | none =>
    simp only [hs] at ha
    cases ha
  | some spread =>
    simp only [hs] at ha
    split_ifs at ha <;> simp_all

theorem zoneBatteryAnomalies_fields (z : Zone) (now : ℚ) :
    ∀ a ∈ zoneBatteryAnomalies z now, a.zoneId = z.zoneId ∧ a.code = "LOW_BATTERY" := by
  intro a ha
  rw [zoneBatteryAnomalies] at ha
  rcases List.mem_flatten.mp ha with ⟨block, hblock, hain⟩
  rcases List.mem_map.mp hblock with ⟨s, _, rfl⟩
  cases hb : s.currentBattery now with
  | none =>
    simp only [hb] at hain
    cases hain
  | some b =>
    simp only [hb] at hain
    split_ifs at hain <;> simp_all

theorem houseSpreadAnomalies_fields (zones : List Zone) (now : ℚ) (T : Thresholds) :
    ∀ a ∈ houseSpreadAnomalies zones now T, a.code = "HOUSE_SPREAD" := by
  intro a ha
  rw [houseSpreadAnomalies] at ha
  split_ifs at ha with h1
  · cases hmx : listMax (zones.filterMap (fun z => z.currentTempF now)) with
    | none =>
      simp only [hmx] at ha
      cases ha
    | some mx =>
      simp only [hmx] at ha
      cases hmn : listMin (zones.filterMap (fun z => z.currentTempF now)) with
      | none =>
        simp only [hmn] at ha
        cases ha
      | some mn =>
        simp only [hmn] at ha
        split_ifs at ha <;> simp_all
  · cases ha

theorem zoneAnomalies_zoneId (z : Zone) (now : ℚ) (rm : List (String × RateResult))
    (T : Thresholds) :
    ∀ a ∈ zoneAnomalies z now rm T, a.zoneId = z.zoneId := by
  intro a ha
  rw [zoneAnomalies] at ha
  simp only [List.mem_append] at ha
  rcases ha with ((((h | h) | h) | h) | h)
  · exact (zoneTempAnomalies_fields z now T a h).1
  · exact (zoneRateAnomalies_fields z rm T a h).1
  · exact (zoneCoverageAnomalies_fields z now a h).1
  · exact (zoneSpreadAnomalies_fields z now T a h).1
  · exact (zoneBatteryAnomalies_fields z now a h).1

/-- Within one zone's push list, at most one anomaly carries a temperature
band code: the non-band blocks carry other codes, and the band block is an
if/else-if chain pushing at most one entry. -/
theorem zoneAnomalies_tempband_len (z : Zone) (now : ℚ)
    (rm : List (String × RateResult)) (T : Thresholds) (zid : String) :
    ((zoneAnomalies z now rm T).filter
      (fun a => decide (a.zoneId = zid ∧ a.code ∈ tempBandCodes))).length ≤ 1 := by
  have hno : ∀ (l : List Anomaly), (∀ a ∈ l, a.code ∉ tempBandCodes) →
      l.filter (fun a => decide (a.zoneId = zid ∧ a.code ∈ tempBandCodes)) = [] := by
    intro l hl
    rw [List.filter_eq_nil_iff]
    intro a ha
    simp only [decide_eq_true_eq, not_and]
    intro _
    exact hl a ha
  have hrate := hno _ (fun a ha => by
    rw [(zoneRateAnomalies_fields z rm T a ha).2]
    simp [tempBandCodes])
  have hcov := hno _ (fun a ha => by
    rcases (zoneCoverageAnomalies_fields z now a ha).2 with hc | hc <;>
      · rw [hc]
        simp [tempBandCodes])
  have hspr := hno _ (fun a ha => by
    rw [(zoneSpreadAnomalies_fields z now T a ha).2]
    simp [tempBandCodes])
  have hbat := hno _ (fun a ha => by
    rw [(zoneBatteryAnomalies_fields z now a ha).2]
    simp [tempBandCodes])
  rw [zoneAnomalies, List.filter_append, List.filter_append, List.filter_append,
    List.filter_append, hrate, hcov, hspr, hbat]
  simp only [List.append_nil]
  exact le_trans (List.length_filter_le _ _) (zoneTempAnomalies_len z now T)

theorem zoneAnomalies_filter_ne (now : ℚ) (rm : List (String × RateResult))
    (T : Thresholds) (w : Zone) (zid : String) (hne : w.zoneId ≠ zid) :
    (zoneAnomalies w now rm T).filter
      (fun a => decide (a.zoneId = zid ∧ a.code ∈ tempBandCodes)) = [] := by
  rw [List.filter_eq_nil_iff]
  intro a ha
  simp only [decide_eq_true_eq, not_and]
  intro h1
  exfalso
  apply hne
  rw [← zoneAnomalies_zoneId w now rm T a ha]
  exact h1

theorem flatten_filter_ne (now : ℚ) (rm : List (String × RateResult)) (T : Thresholds) :
    ∀ (ws : List Zone) (zid : String), zid ∉ ws.map (fun w => w.zoneId) →
      ((ws.map (fun w => zoneAnomalies w now rm T)).flatten).filter
        (fun a => decide (a.zoneId = zid ∧ a.code ∈ tempBandCodes)) = [] := by
  intro ws
  induction ws with
  | nil =>
    intro zid _
    simp
  | cons w ws ih =>
    intro zid hzid
    have h1 : w.zoneId ≠ zid := fun he => hzid (by
      rw [List.map_cons, List.mem_cons]
      exact Or.inl he.symm)
    have h2 : zid ∉ ws.map (fun w => w.zoneId) := fun hm => hzid (by
      rw [List.map_cons, List.mem_cons]
      exact Or.inr hm)
    rw [List.map_cons, List.flatten_cons, List.filter_append,
      zoneAnomalies_filter_ne now rm T w zid h1, ih zid h2]
    rfl

theorem flatten_tempband_count (now : ℚ) (rm : List (String × RateResult))
    (T : Thresholds) :
    ∀ (zs : List Zone), (zs.map (fun w => w.zoneId)).Nodup → ∀ z ∈ zs,
      (((zs.map (fun w => zoneAnomalies w now rm T)).flatten).filter
        (fun a => decide (a.zoneId = z.zoneId ∧ a.code ∈ tempBandCodes))).length ≤ 1 := by
  intro zs
  induction zs with
  | nil =>
    intro _ z hz
    cases hz
  | cons w zs ih =>
    intro hnodup z hz
    rw [List.map_cons, List.nodup_cons] at hnodup
    obtain ⟨hnotin, hnodup'⟩ := hnodup
    rw [List.map_cons, List.flatten_cons, List.filter_append, List.length_append]
    rcases List.mem_cons.mp hz with rfl | hz'
    · rw [flatten_filter_ne now rm T zs z.zoneId hnotin]
      simpa using zoneAnomalies_tempband_len z now rm T z.zoneId
    · have hne : w.zoneId ≠ z.zoneId := fun he => hnotin (by
        rw [he]
        exact List.mem_map_of_mem _ hz')
      rw [zoneAnomalies_filter_ne now rm T w z.zoneId hne]
      simpa using ih hnodup' z hz'

/-- C6: a zone emits at most one temperature-band anomaly per cycle — the
band check is a single most-severe-first if/else-if chain, so a zone below
the danger-low threshold emits only the danger "dangerously cold" anomaly
and no additional warning-low one — and across a whole `detectAnomalies`
run over zones with distinct ids, at most one band anomaly carries a given
zone's id.  Concretely, a zone at 58 °F under the default thresholds
(dangerLowF = 60) produces exactly the one danger TEMP_DANGER_LOW anomaly. -/
theorem c6_temp_band_precedence :
    (∀ (z : Zone) (now : ℚ) (T : Thresholds), (zoneTempAnomalies z now T).length ≤ 1)
    ∧ (∀ (z : Zone) (now : ℚ) (T : Thresholds) (temp : ℚ),
        z.currentTempF now = some temp → temp < T.dangerLowF →
        zoneTempAnomalies z now T = [⟨"danger", z.zoneId, "TEMP_DANGER_LOW",
          z.name ++ " is dangerously cold", some temp⟩])
    ∧ (∀ (zones : List Zone) (weather : Option WeatherSnapshot)
        (rateMap : List (String × RateResult)) (T : Thresholds) (now : ℚ) (z : Zone),
        z ∈ zones → (zones.map (fun w => w.zoneId)).Nodup →
        ((detectAnomalies zones weather rateMap T now).filter
          (fun a => decide (a.zoneId = z.zoneId ∧ a.code ∈ tempBandCodes))).length ≤ 1)
    ∧ detectAnomalies [zoneAt "z58" 58] none [] defaultThresholds 0
        = [⟨"danger", "z58", "TEMP_DANGER_LOW", "z58 is dangerously cold", some 58⟩] := by
  refine ⟨zoneTempAnomalies_len, ?_, ?_, ?_⟩
  · intro z now T temp htemp hlt
    simp only [zoneTempAnomalies, htemp]
    rw [if_pos hlt]
  · intro zones weather rateMap T now z hz hnodup
    rw [detectAnomalies, List.filter_append, List.length_append]
    have hhouse : (houseSpreadAnomalies zones now T).filter
        (fun a => decide (a.zoneId = z.zoneId ∧ a.code ∈ tempBandCodes)) = [] := by
      rw [List.filter_eq_nil_iff]
      intro a ha
      simp only [decide_eq_true_eq, not_and]
      intro _
      rw [houseSpreadAnomalies_fields zones now T a ha]
      simp [tempBandCodes]
    rw [hhouse]
    simpa using flatten_tempband_count now rateMap T zones hnodup z hz
  · have hstat : Sensor.status ⟨"z58", "z58", none, [mkR "z58" 0 58]⟩ 0 = "online" := by
      simp only [Sensor.status, Sensor.latestReading]
      rw [show ([mkR "z58" 0 58] : List Reading).getLast? = some (mkR "z58" 0 58) from rfl]
      norm_num [Reading.isStale, Reading.ageMinutes, mkR]
    have hs58 : Sensor.currentTempF ⟨"z58", "z58", none, [mkR "z58" 0 58]⟩ 0
        = some 58 := by
      simp only [Sensor.currentTempF, Sensor.latestReading]
      rw [show ([mkR "z58" 0 58] : List Reading).getLast? = some (mkR "z58" 0 58) from rfl]
      norm_num [Reading.isStale, Reading.ageMinutes, mkR]
    have hbatt : Sensor.currentBattery ⟨"z58", "z58", none, [mkR "z58" 0 58]⟩ 0
        = none := by
      simp only [Sensor.currentBattery, Sensor.latestReading]
      rw [show ([mkR "z58" 0 58] : List Reading).getLast? = some (mkR "z58" 0 58) from rfl]
      norm_num [Reading.isStale, Reading.ageMinutes, mkR]
    have htb : zoneTempAnomalies (zoneAt "z58" 58) 0 defaultThresholds
        = [⟨"danger", "z58", "TEMP_DANGER_LOW", "z58 is dangerously cold", some 58⟩] := by
      simp only [zoneTempAnomalies, zoneAt_currentTempF]
      rw [if_pos (by norm_num [defaultThresholds])]
      rfl
    have hrt : zoneRateAnomalies (zoneAt "z58" 58) [] defaultThresholds = [] := rfl
    have hcovS : (zoneAt "z58" 58).coverageStatus 0 = "covered" := by
      rw [Zone.coverageStatus]
      norm_num [zoneAt, List.filter_cons, hstat]
    have hcov : zoneCoverageAnomalies (zoneAt "z58" 58) 0 = [] := by
      rw [zoneCoverageAnomalies, if_neg (by simp [hcovS]), if_neg (by simp [hcovS])]
    have hspread : (zoneAt "z58" 58).tempSpreadF 0 = some 0 := by
      rw [Zone.tempSpreadF]
      norm_num [Zone.minTempF, Zone.maxTempF, listMin, listMax, zoneAt,
        List.filterMap_cons, hs58]
    have hspr : zoneSpreadAnomalies (zoneAt "z58" 58) 0 defaultThresholds = [] := by
      simp only [zoneSpreadAnomalies, hspread]
      rw [if_neg (by norm_num [defaultThresholds])]
    have hbat : zoneBatteryAnomalies (zoneAt "z58" 58) 0 = [] := by
      simp only [zoneBatteryAnomalies, zoneAt, List.map_cons, List.map_nil, hbatt]
      rfl
    have hhouse : houseSpreadAnomalies [zoneAt "z58" 58] 0 defaultThresholds = [] := by
      rw [houseSpreadAnomalies,
        if_neg (by norm_num [List.filterMap_cons, zoneAt_currentTempF])]
    rw [detectAnomalies, List.map_cons, List.map_nil, List.flatten_cons,
      List.flatten_nil, hhouse, zoneAnomalies, htb, hrt, hcov, hspr, hbat]
    rfl

/-- C6 witness: the at-most-one-band-anomaly bound applied to the concrete
58 °F zone run. -/
theorem c6_temp_band_precedence_witness :
    ((detectAnomalies [zoneAt "z58" 58] none [] defaultThresholds 0).filter
      (fun a => decide (a.zoneId = (zoneAt "z58" 58).zoneId
        ∧ a.code ∈ tempBandCodes))).length ≤ 1 :=
  (c6_temp_band_precedence).2.2.1 [zoneAt "z58" 58] none [] defaultThresholds 0
    (zoneAt "z58" 58) (List.mem_singleton_self _) (by simp)
